import Mathlib

/-!
Verification of the OpenClaw outbound-security core: TOTP code
generation/verification, the in-memory TOTP approval-window session,
the trust gate, the sliding-window rate limiter, the audit log and the
at-rest vault wrapper.  Each definition is a shallow embedding of the
corresponding TypeScript function; JS numbers are modelled as `Int`
(or `Nat` where the source value is provably non-negative), byte
buffers as `List Nat`, and thrown exceptions as `Except String`.
-/

set_option maxRecDepth 10000

instance {ε α : Type} [DecidableEq ε] [DecidableEq α] : DecidableEq (Except ε α) :=
  fun a b =>
    match a, b with
    | .ok x, .ok y =>
      if h : x = y then .isTrue (by rw [h]) else .isFalse (fun hc => h (Except.ok.inj hc))
    | .error x, .error y =>
      if h : x = y then .isTrue (by rw [h]) else .isFalse (fun hc => h (Except.error.inj hc))
    | .ok _, .error _ => .isFalse (fun hc => Except.noConfusion hc)
    | .error _, .ok _ => .isFalse (fun hc => Except.noConfusion hc)

/-! ## TOTP core (src/infra/totp/totp.ts)

SHA-1 and HMAC-SHA1 are the `node:crypto` primitives used by
`generateTotpCode`; they are embedded here in full (FIPS 180-4 /
RFC 2104) so the TOTP functions are executable.  32-bit words are
`Nat` reduced modulo 2^32. -/

def w32 (n : Nat) : Nat := n % 4294967296

def rotl (b n : Nat) : Nat := w32 ((n <<< b) ||| (n >>> (32 - b)))

/-- Big-endian bytes (most significant first) of `n`, `k` bytes wide. -/
def beBytes (k n : Nat) : List Nat :=
  match k with
  | 0 => []
  | j + 1 => (n >>> (8 * j)) % 256 :: beBytes j n

/-- Pack a byte list into big-endian 32-bit words (length assumed a
multiple of 4, as it always is after SHA-1 padding). -/
def packWords (bytes : List Nat) : List Nat :=
  let step := fun (acc : List Nat × Nat × Nat) (b : Nat) =>
    let cur := acc.2.1 * 256 + b
    if acc.2.2 = 3 then (acc.1 ++ [cur], 0, 0) else (acc.1, cur, acc.2.2 + 1)
  (bytes.foldl step ([], 0, 0)).1

/-- Split a word list into 16-word blocks (length assumed a multiple
of 16). -/
def toBlocks (words : List Nat) : List (List Nat) :=
  let step := fun (acc : List (List Nat) × List Nat) (w : Nat) =>
    if acc.2.length = 15 then (acc.1 ++ [acc.2 ++ [w]], []) else (acc.1, acc.2 ++ [w])
  (words.foldl step ([], [])).1

/-- SHA-1 message schedule: 80 32-bit words extended from a 16-word
block. -/
def sha1W (block : List Nat) : List Nat :=
  (List.range 80).foldl
    (fun w i =>
      if i < 16 then w ++ [block.getD i 0]
      else
        w ++ [rotl 1 ((((w.getD (i - 3) 0) ^^^ (w.getD (i - 8) 0)) ^^^
          (w.getD (i - 14) 0)) ^^^ (w.getD (i - 16) 0))])
    []

def sha1F (i b c d : Nat) : Nat :=
  if i < 20 then (b &&& c) ||| ((4294967295 - b) &&& d)
  else if i < 40 then (b ^^^ c) ^^^ d
  else if i < 60 then ((b &&& c) ||| (b &&& d)) ||| (c &&& d)
  else (b ^^^ c) ^^^ d

def sha1K (i : Nat) : Nat :=
  if i < 20 then 1518500249
  else if i < 40 then 1859775393
  else if i < 60 then 2400959708
  else 3395469782

/-- One SHA-1 block compression. State is `(a, b, c, d, e)`. -/
def sha1Compress (h : Nat × Nat × Nat × Nat × Nat) (block : List Nat) :
    Nat × Nat × Nat × Nat × Nat :=
  let w := sha1W block
  let step := fun (st : Nat × Nat × Nat × Nat × Nat) (i : Nat) =>
    let a := st.1; let b := st.2.1; let c := st.2.2.1
    let d := st.2.2.2.1; let e := st.2.2.2.2
    let t := w32 (rotl 5 a + sha1F i b c d + e + sha1K i + w.getD i 0)
    (t, a, rotl 30 b, c, d)
  let f := (List.range 80).foldl step h
  (w32 (h.1 + f.1), w32 (h.2.1 + f.2.1), w32 (h.2.2.1 + f.2.2.1),
   w32 (h.2.2.2.1 + f.2.2.2.1), w32 (h.2.2.2.2 + f.2.2.2.2))

/-- SHA-1 of a byte list, producing the 20-byte digest. -/
def sha1 (msg : List Nat) : List Nat :=
  let len := msg.length
  let padZeros := (119 - len % 64) % 64
  let padded := msg ++ 128 :: List.replicate padZeros 0 ++ beBytes 8 (8 * len)
  let blocks := toBlocks (packWords padded)
  let h := blocks.foldl sha1Compress
    (1732584193, 4023233417, 2562383102, 271733878, 3285377520)
  beBytes 4 h.1 ++ beBytes 4 h.2.1 ++ beBytes 4 h.2.2.1 ++
    beBytes 4 h.2.2.2.1 ++ beBytes 4 h.2.2.2.2

/-- HMAC-SHA1 (RFC 2104), the `crypto.createHmac("sha1", key)` call in
`totp.ts`. -/
def hmacSha1 (key msg : List Nat) : List Nat :=
  let k0 := if key.length > 64 then sha1 key else key
  let k := k0 ++ List.replicate (64 - k0.length) 0
  let ipad := k.map (fun b => b ^^^ 54)
  let opad := k.map (fun b => b ^^^ 92)
  sha1 (opad ++ sha1 (ipad ++ msg))

def BASE32_ALPHABET : String := "ABCDEFGHIJKLMNOPQRSTUVWXYZ234567"

/-- `base32Encode` from totp.ts: 5-bit chunks of the bit string, the
last chunk right-padded with zero bits. -/
def base32Encode (buffer : List Nat) : String :=
  let bits := buffer.foldl (fun acc b => acc ++ (List.range 8).map
    (fun i => (b >>> (7 - i)) &&& 1)) []
  let step := fun (acc : String × List Nat) (bit : Nat) =>
    let cur := acc.2 ++ [bit]
    if cur.length = 5 then
      (acc.1.push (BASE32_ALPHABET.data.getD (cur.foldl (fun v c => 2 * v + c) 0) 'A'), [])
    else (acc.1, cur)
  let r := bits.foldl step ("", [])
  if r.2.isEmpty then r.1
  else r.1.push (BASE32_ALPHABET.data.getD
    ((r.2 ++ List.replicate (5 - r.2.length) 0).foldl (fun v c => 2 * v + c) 0) 'A')

/-- The character set removed by `encoded.replace(/[\s=]/g, "")` in
`base32Decode`: JS regex whitespace plus `=`. -/
def isB32Stripped (c : Char) : Bool :=
  c.toNat == 32 || c.toNat == 9 || c.toNat == 10 || c.toNat == 11 || c.toNat == 12 ||
    c.toNat == 13 || c.toNat == 160 || c.toNat == 8232 || c.toNat == 8233 ||
    c.toNat == 65279 || (8192 ≤ c.toNat && c.toNat ≤ 8202) || c.toNat == 5760 ||
    c.toNat == 8239 || c.toNat == 8287 || c.toNat == 12288 || c.toNat == 61

/-- `base32Decode` from totp.ts.  `none` models the thrown
`Invalid base32 character` error.  Each kept character contributes 5
bits; complete bytes are taken from the front, leftover bits dropped. -/
def base32Decode (encoded : String) : Option (List Nat) :=
  let cleaned := (encoded.data.filter (fun c => !isB32Stripped c)).map Char.toUpper
  let idxs := cleaned.mapM (fun c =>
    let i := BASE32_ALPHABET.data.indexOf c
    if i < 32 then some i else none)
  idxs.map (fun ids =>
    let bits := ids.foldl (fun acc i => acc ++ (List.range 5).map
      (fun j => (i >>> (4 - j)) &&& 1)) []
    let step := fun (acc : List Nat × List Nat) (bit : Nat) =>
      let cur := acc.2 ++ [bit]
      if cur.length = 8 then
        (acc.1 ++ [cur.foldl (fun v c => 2 * v + c) 0], [])
      else (acc.1, cur)
    (bits.foldl step ([], [])).1)

/-- `dynamicTruncate` from totp.ts. -/
def dynamicTruncate (hmacResult : List Nat) : Nat :=
  let offset := (hmacResult.getD (hmacResult.length - 1) 0) &&& 15
  let code :=
    (((hmacResult.getD offset 0) &&& 127) <<< 24) |||
    (((hmacResult.getD (offset + 1) 0) &&& 255) <<< 16) |||
    (((hmacResult.getD (offset + 2) 0) &&& 255) <<< 8) |||
    ((hmacResult.getD (offset + 3) 0) &&& 255)
  code % 1000000

/-- Decimal digits of `n` (fuel-structural so the kernel can reduce
it); models JS `Number.prototype.toString()` for naturals. -/
def natDigits (fuel n : Nat) : List Char :=
  match fuel with
  | 0 => []
  | f + 1 =>
    if n < 10 then ["0123456789".data.getD n '0']
    else natDigits f (n / 10) ++ ["0123456789".data.getD (n % 10) '0']

def natDecimal (n : Nat) : String := String.mk (natDigits n n)

/-- JS `String.prototype.padStart(width, c)`. -/
def jsPadStart (s : String) (width : Nat) (c : Char) : String :=
  String.mk (List.replicate (width - s.length) c ++ s.data)

/-- `generateTotpCode` from totp.ts.  The time is an `Int` (JS number
of milliseconds); `counter = Math.floor(time / 1000 / 30)` is floor
division.  `counterBuf.writeBigUInt64BE(BigInt(counter))` throws a
`RangeError` unless `0 ≤ counter < 2^64`, modelled as
`.error "ERR_OUT_OF_RANGE"`; an invalid base32 secret models the
thrown `Invalid base32 character` error. -/
def generateTotpCode (secret : String) (timeMs : Int) : Except String String :=
  let counter : Int := Int.fdiv timeMs 30000
  if counter < 0 ∨ (18446744073709551616 : Int) ≤ counter then
    .error "ERR_OUT_OF_RANGE"
  else
    match base32Decode secret with
    | none => .error "Invalid base32 character"
    | some key =>
      let counterBuf := beBytes 8 counter.toNat
      let hmac := hmacSha1 key counterBuf
      let code := dynamicTruncate hmac
      .ok (jsPadStart (natDecimal code) 6 '0')

/-- The JS `String.prototype.trim` whitespace set (WhiteSpace and
LineTerminator code points). -/
def jsIsTrimmable (c : Char) : Bool :=
  c.toNat == 32 || c.toNat == 9 || c.toNat == 10 || c.toNat == 11 || c.toNat == 12 ||
    c.toNat == 13 || c.toNat == 160 || c.toNat == 8232 || c.toNat == 8233 ||
    c.toNat == 65279 || (8192 ≤ c.toNat && c.toNat ≤ 8202) || c.toNat == 5760 ||
    c.toNat == 8239 || c.toNat == 8287 || c.toNat == 12288

def jsTrim (s : String) : String :=
  String.mk (((s.data.dropWhile jsIsTrimmable).reverse.dropWhile jsIsTrimmable).reverse)

def isAsciiDigit (c : Char) : Bool := 48 ≤ c.toNat && c.toNat ≤ 57

/-- `crypto.timingSafeEqual`: throws (`.error`) when the two buffers
have different lengths, otherwise reports byte equality. -/
def timingSafeEqual (a b : List Nat) : Except String Bool :=
  if a.length ≠ b.length then .error "Input buffers must have the same byte length"
  else .ok (a == b)

/-- The verification loop of `verifyTotpCode`: try each probe offset
in order, propagating any exception from `generateTotpCode` or
`timingSafeEqual`. -/
def verifyLoop (secret : String) (trimmed : List Nat) (timeMs : Int) :
    List Int → Except String Bool
  | [] => .ok false
  | i :: rest =>
    match generateTotpCode secret (timeMs + i * 30000) with
    | .error e => .error e
    | .ok expected =>
      match timingSafeEqual trimmed (expected.data.map Char.toNat) with
      | .error e => .error e
      | .ok true => .ok true
      | .ok false => verifyLoop secret trimmed timeMs rest

/-- The probe offsets `-window, …, window` in loop order. -/
def probeOffsets (window : Nat) : List Int :=
  (List.range (2 * window + 1)).map (fun (j : Nat) => (j : Int) - (window : Int))

/-- `verifyTotpCode` from totp.ts, with explicit `window` and `timeMs`
(the source defaults are window 1 and `Date.now()`).  `.error` models
a thrown exception. -/
def verifyTotpCode (secret code : String) (window : Nat) (timeMs : Int) :
    Except String Bool :=
  let trimmed := jsTrim code
  if trimmed.length ≠ 6 ∨ ¬ trimmed.data.all isAsciiDigit then .ok false
  else verifyLoop secret (trimmed.data.map Char.toNat) timeMs (probeOffsets window)

/-! ## TOTP approval-window session (totp-session.ts)

The module-level mutable state (`activeWindow`, `pendingResolvers`)
becomes an explicit `SessionState`.  JS heap objects referenced both
from the `pendingResolvers` array and from timer closures are modelled
by giving each `PendingResolver` a unique id: `resolvers` is the heap
(every resolver ever created, with its current `settled` flag) and
`queue` is the `pendingResolvers` array (ids in array order).
Invocations of a resolver's `resolve` callback are recorded as emitted
`(rid, approved)` pairs. -/

structure ApprovalWindow where
  expiresAt : Int
  approvedActions : List String
  channel : String
  accountId : Option String
deriving Repr, DecidableEq

structure PendingResolver where
  rid : Nat
  action : String
  settled : Bool
deriving Repr, DecidableEq

structure SessionState where
  activeWindow : Option ApprovalWindow
  resolvers : List PendingResolver
  queue : List Nat
  nextId : Nat
deriving Repr, DecidableEq

def initSessionState : SessionState := ⟨none, [], [], 0⟩

def findResolver (rs : List PendingResolver) (rid : Nat) : Option PendingResolver :=
  rs.find? (fun r => r.rid == rid)

def markSettled (rs : List PendingResolver) (rid : Nat) : List PendingResolver :=
  rs.map (fun r => if r.rid == rid then { r with settled := true } else r)

/-- `settleResolver` from totp-session.ts: a no-op when the entry is
already settled, otherwise sets the flag (and in JS cancels the timer)
and invokes `resolve(approved)` — recorded as an emission. -/
def settleResolver (rs : List PendingResolver) (rid : Nat) (approved : Bool) :
    List PendingResolver × List (Nat × Bool) :=
  match findResolver rs rid with
  | none => (rs, [])
  | some r =>
    if r.settled then (rs, [])
    else (markSettled rs rid, [(rid, approved)])

/-- The loop of `drainAllResolvers`: settle each queued entry in array
order. -/
def settleQueue (rs : List PendingResolver) (approved : Bool) :
    List Nat → List PendingResolver × List (Nat × Bool)
  | [] => (rs, [])
  | rid :: rest =>
    let s1 := settleResolver rs rid approved
    let s2 := settleQueue s1.1 approved rest
    (s2.1, s1.2 ++ s2.2)

/-- `drainAllResolvers` from totp-session.ts: settle everything, then
clear the array. -/
def drainAllResolvers (st : SessionState) (approved : Bool) :
    SessionState × List (Nat × Bool) :=
  let s := settleQueue st.resolvers approved st.queue
  ({ st with resolvers := s.1, queue := [] }, s.2)

/-- The release loop of `startApprovalWindow`: entries whose action is
in the approved set are settled `true`; the others are pushed onto
`remaining` in order.  Result: (heap, emissions, remaining queue). -/
def releaseMatching (approvedActions : List String) (rs : List PendingResolver) :
    List Nat → List PendingResolver × List (Nat × Bool) × List Nat
  | [] => (rs, [], [])
  | rid :: rest =>
    match findResolver rs rid with
    | none => releaseMatching approvedActions rs rest
    | some r =>
      if approvedActions.contains r.action then
        let s1 := settleResolver rs rid true
        let s2 := releaseMatching approvedActions s1.1 rest
        (s2.1, s1.2 ++ s2.2.1, s2.2.2)
      else
        let s2 := releaseMatching approvedActions rs rest
        (s2.1, s2.2.1, rid :: s2.2.2)

structure StartWindowParams where
  durationMinutes : Int
  actions : Option (List String)
  channel : Option String
  accountId : Option String

/-- `startApprovalWindow` from totp-session.ts. -/
def startApprovalWindow (st : SessionState) (now : Int) (params : StartWindowParams) :
    SessionState × List (Nat × Bool) :=
  let durationMs := params.durationMinutes * 60 * 1000
  let expiresAt := now + durationMs
  let win : ApprovalWindow :=
    { expiresAt := expiresAt,
      approvedActions := params.actions.getD ["message.send"],
      channel := params.channel.getD "all",
      accountId := params.accountId }
  let s := releaseMatching win.approvedActions st.resolvers st.queue
  ({ activeWindow := some win, resolvers := s.1, queue := s.2.2, nextId := st.nextId },
   s.2.1)

/-- The lazy Open→Closed transition performed by
`isApprovalWindowActive` on every read. -/
def lazyExpire (st : SessionState) (now : Int) : SessionState :=
  match st.activeWindow with
  | none => st
  | some w => if w.expiresAt ≤ now then { st with activeWindow := none } else st

/-- `isApprovalWindowActive`, as a pure predicate on the pre-read
state (the state effect is `lazyExpire`). -/
def isApprovalWindowActiveB (st : SessionState) (now : Int) : Bool :=
  match st.activeWindow with
  | none => false
  | some w => decide (now < w.expiresAt)

/-- `isActionApproved` from totp-session.ts (pure predicate; state
effect is `lazyExpire`). -/
def isActionApproved (st : SessionState) (now : Int) (action : String) : Bool :=
  isApprovalWindowActiveB st now && match st.activeWindow with
    | none => false
    | some w => w.approvedActions.contains action

/-- `closeApprovalWindow` from totp-session.ts. -/
def closeApprovalWindow (st : SessionState) : SessionState × List (Nat × Bool) :=
  drainAllResolvers { st with activeWindow := none } false

/-- `waitForApprovalWindow` from totp-session.ts.  If the action is
already approved the promise resolves `true` immediately and no
resolver is created (`none`); otherwise a fresh resolver is enqueued
and its id returned.  The deadline timer is modelled by later
`timerFire` events. -/
def waitForApprovalWindow (st : SessionState) (now : Int) (action : String)
    (timeoutMs : Int) : SessionState × Option Nat :=
  let _ := timeoutMs
  let st1 := lazyExpire st now
  if isActionApproved st now action then (st1, none)
  else
    let r : PendingResolver := { rid := st1.nextId, action := action, settled := false }
    let st2 : SessionState :=
      { st1 with
        resolvers := st1.resolvers ++ [r]
        queue := st1.queue ++ [st1.nextId]
        nextId := st1.nextId + 1 }
    (st2, some st1.nextId)

/-- The deadline-timer callback installed by `waitForApprovalWindow`:
settle `false`, then remove the entry from the queue (the removal
happens whether or not the settle call emitted). -/
def timerFire (st : SessionState) (rid : Nat) : SessionState × List (Nat × Bool) :=
  let s := settleResolver st.resolvers rid false
  ({ st with resolvers := s.1, queue := st.queue.erase rid }, s.2)

/-- Events that can touch the session state.  `fire rid` is the
deadline timer of resolver `rid` going off; the scheduler may attempt
it at any time (in JS a cleared timer never fires, so this is a
superset of the real schedules — every theorem below holds for the
superset). -/
inductive SEvent where
  | start (now : Int) (params : StartWindowParams)
  | close
  | fire (rid : Nat)
  | wait (now : Int) (action : String) (timeoutMs : Int)

def applyEvent (st : SessionState) : SEvent → SessionState × List (Nat × Bool)
  | .start now params => startApprovalWindow st now params
  | .close => closeApprovalWindow st
  | .fire rid => timerFire st rid
  | .wait now action tmo => ((waitForApprovalWindow st now action tmo).1, [])

def runEvents (st : SessionState) : List SEvent → SessionState × List (Nat × Bool)
  | [] => (st, [])
  | e :: es =>
    let s1 := applyEvent st e
    let s2 := runEvents s1.1 es
    (s2.1, s1.2 ++ s2.2)

/-! ## Trust gate (trust-gate.ts)

`OpenClawConfig` is modelled with exactly the optional fields the
trust gate reads.  The two suspension points — the external socket
approval call and `waitForApprovalWindow` — are supplied as explicit
outcomes (`socketOutcome`, `waitOutcome`); the audit-log appends and
prompt-callback invocations performed by a call are returned as
`GateEffects`, and the `waitForApprovalWindow(action, timeoutMs)`
calls issued are recorded in `waitCalls`. -/

inductive ApprovalMode where
  | socket
  | totp
deriving Repr, DecidableEq

structure AgentDefaults where
  trustLevel : Option Int
  requireApproval : Option (List String)
  approvalMode : Option ApprovalMode
  totpWindowMinutes : Option Int
deriving Repr, DecidableEq

structure AgentsSection where
  defaults : Option AgentDefaults
deriving Repr, DecidableEq

structure OpenClawConfig where
  agents : Option AgentsSection
deriving Repr, DecidableEq

def DEFAULT_REQUIRE_APPROVAL : List String := ["message.send"]

def DEFAULT_TOTP_WAIT_MS : Nat := 120000

def resolveTrustLevel (cfg : OpenClawConfig) : Int :=
  ((cfg.agents.bind (·.defaults)).bind (·.trustLevel)).getD 0

def resolveRequireApproval (cfg : OpenClawConfig) : List String :=
  ((cfg.agents.bind (·.defaults)).bind (·.requireApproval)).getD DEFAULT_REQUIRE_APPROVAL

def resolveApprovalMode (cfg : OpenClawConfig) : ApprovalMode :=
  ((cfg.agents.bind (·.defaults)).bind (·.approvalMode)).getD .socket

def resolveTotpWindowMinutes (cfg : OpenClawConfig) : Int :=
  ((cfg.agents.bind (·.defaults)).bind (·.totpWindowMinutes)).getD 5

/-- `shouldInterceptAction` from trust-gate.ts. -/
def shouldInterceptAction (cfg : OpenClawConfig) (action : String) : Bool :=
  if resolveTrustLevel cfg < 1 then false
  else (resolveRequireApproval cfg).contains action

/-- `TrustGateResult`; `none` in an optional field stands for the
field being absent or `null`. -/
structure TrustGateResult where
  allowed : Bool
  decision : Option String
  pendingTotp : Option Bool
  promptMessage : Option String
deriving Repr, DecidableEq

/-- Arguments of a `logOutboundAudit` call made by the trust gate. -/
structure AuditCall where
  channel : String
  recipient : String
  content : String
  blocked : Bool
  blockReason : Option String
  sessionId : Option String
deriving Repr, DecidableEq

structure GateEffects where
  audits : List AuditCall
  prompts : List String
  waitCalls : List (String × Nat)
deriving Repr, DecidableEq

def noGateEffects : GateEffects := ⟨[], [], []⟩

structure GateParams where
  channel : String
  recipient : String
  content : String
  sessionId : Option String

/-- Outcome of the external socket exec-approval collaborator:
`.ok decision` for a decoded decision string, `.error` for any
transport or protocol failure (modelling the `catch` branch). -/
def SocketOutcome : Type := Except String String

/-- `requestApprovalViaSocket` from trust-gate.ts. -/
def requestApprovalViaSocket (p : GateParams) (socketOutcome : SocketOutcome) :
    TrustGateResult × GateEffects :=
  match socketOutcome with
  | .ok decision =>
    if decision == "allow-once" || decision == "allow-always" then
      ({ allowed := true, decision := some decision, pendingTotp := none,
         promptMessage := none }, noGateEffects)
    else
      ({ allowed := false, decision := some decision, pendingTotp := none,
         promptMessage := none },
       { audits := [⟨p.channel, p.recipient, p.content, true, some "trust_gate",
          p.sessionId⟩], prompts := [], waitCalls := [] })
  | .error _ =>
    ({ allowed := false, decision := none, pendingTotp := none, promptMessage := none },
     { audits := [⟨p.channel, p.recipient, p.content, true, some "trust_gate",
        p.sessionId⟩], prompts := [], waitCalls := [] })

/-- The prompt text built by `requestApprovalViaTotp` (one-shot prompt
with the first-100-characters preview). -/
def totpPromptMessage (cfg : OpenClawConfig) (p : GateParams) : String :=
  let contentPreview :=
    if p.content.length > 100 then String.mk (p.content.data.take 100) ++ "…"
    else p.content
  "🔐 Action requires approval: send message to " ++ p.channel ++ ":" ++ p.recipient ++
    "\n" ++ "Preview: " ++ contentPreview ++ "\n\n" ++
    "Send your 6-digit authenticator code to approve (window: " ++
    toString (resolveTotpWindowMinutes cfg) ++ " min)."

/-- `requestApprovalViaTotp` from trust-gate.ts.  `sessionNow` is the
clock at the `isActionApproved` read; `waitOutcome` is the boolean the
`waitForApprovalWindow` promise eventually resolves to. -/
def requestApprovalViaTotp (cfg : OpenClawConfig) (p : GateParams)
    (session : SessionState) (sessionNow : Int) (waitOutcome : Bool) :
    TrustGateResult × GateEffects :=
  if isActionApproved session sessionNow "message.send" then
    ({ allowed := true, decision := some "allow-once", pendingTotp := none,
       promptMessage := none }, noGateEffects)
  else
    let promptMessage := totpPromptMessage cfg p
    if waitOutcome then
      ({ allowed := true, decision := some "allow-once", pendingTotp := none,
         promptMessage := none },
       { audits := [], prompts := [promptMessage],
         waitCalls := [("message.send", DEFAULT_TOTP_WAIT_MS)] })
    else
      ({ allowed := false, decision := none, pendingTotp := some true,
         promptMessage := some promptMessage },
       { audits := [⟨p.channel, p.recipient, p.content, true, some "trust_gate",
          p.sessionId⟩], prompts := [promptMessage],
         waitCalls := [("message.send", DEFAULT_TOTP_WAIT_MS)] })

/-- `requestMessageSendApproval` from trust-gate.ts. -/
def requestMessageSendApproval (cfg : OpenClawConfig) (p : GateParams)
    (session : SessionState) (sessionNow : Int) (socketOutcome : SocketOutcome)
    (waitOutcome : Bool) : TrustGateResult × GateEffects :=
  if ¬ shouldInterceptAction cfg "message.send" then
    ({ allowed := true, decision := none, pendingTotp := none, promptMessage := none },
     noGateEffects)
  else
    match resolveApprovalMode cfg with
    | .totp => requestApprovalViaTotp cfg p session sessionNow waitOutcome
    | .socket => requestApprovalViaSocket p socketOutcome

/-! ## Rate limiter (rate-limiter.ts)

The module-level `buckets` map becomes an explicit bucket (timestamp
list) passed in and out; timestamps are `Int` milliseconds. -/

def ONE_MINUTE_MS : Int := 60000

def ONE_HOUR_MS : Int := 3600000

/-- `pruneExpired` from rate-limiter.ts: drop the longest prefix of
entries strictly older than `now - windowMs`. -/
def pruneExpired (timestamps : List Int) (windowMs now : Int) : List Int :=
  timestamps.dropWhile (fun t => t < now - windowMs)

structure RateLimitResult where
  allowed : Bool
  reason : Option String
deriving Repr, DecidableEq

/-- `checkRateLimit` from rate-limiter.ts, with the bucket for
`channel[:accountId]` passed explicitly (checking never mutates it).
`hourCheck` is the tail of the function after the per-minute early
return. -/
def checkRateLimit (channel : String) (accountId : Option String)
    (maxPerMinute maxPerHour : Option Nat) (now : Int) (bucket : List Int) :
    RateLimitResult :=
  if maxPerMinute.isNone ∧ maxPerHour.isNone then { allowed := true, reason := none }
  else
    let timestamps := pruneExpired bucket ONE_HOUR_MS now
    let acctSuffix := match accountId with
      | some a => ":" ++ a
      | none => ""
    let hourCheck : RateLimitResult :=
      match maxPerHour with
      | some m =>
        if m ≤ timestamps.length then
          { allowed := false,
            reason := some ("Rate limit exceeded: " ++ natDecimal timestamps.length ++
              "/" ++ natDecimal m ++ " messages per hour on " ++ channel ++ acctSuffix) }
        else { allowed := true, reason := none }
      | none => { allowed := true, reason := none }
    match maxPerMinute with
    | some m =>
      let countInMinute := (timestamps.filter (fun t => now - ONE_MINUTE_MS ≤ t)).length
      if m ≤ countInMinute then
        { allowed := false,
          reason := some ("Rate limit exceeded: " ++ natDecimal countInMinute ++ "/" ++
            natDecimal m ++ " messages per minute on " ++ channel ++ acctSuffix) }
      else hourCheck
    | none => hourCheck

/-- `recordMessage` from rate-limiter.ts: prune, then append `now`. -/
def recordMessage (now : Int) (bucket : List Int) : List Int :=
  pruneExpired bucket ONE_HOUR_MS now ++ [now]

/-! ## Audit log (audit-log.ts)

The audit file is modelled as the character list appended to the open
file descriptor; `JSON.stringify` over `AuditLogEntry` is embedded
with the exact JSON string-escaping rules of ECMA-404/ECMA-262. -/

def MAX_CONTENT_LENGTH : Nat := 10000

structure AuditLogEntry where
  timestamp : String
  targetChannel : String
  recipient : String
  messageContent : String
  blocked : Bool
  blockReason : Option String
  sessionId : Option String
deriving Repr, DecidableEq

/-- `truncateContent` from audit-log.ts. -/
def truncateContent (content : String) : String :=
  if content.length ≤ MAX_CONTENT_LENGTH then content
  else String.mk (content.data.take MAX_CONTENT_LENGTH)

def hexDigitChar (n : Nat) : Char := "0123456789abcdef".data.getD (n % 16) '0'

/-- `JSON.stringify` escaping of one character inside a string
literal. -/
def jsonEscapeChar (c : Char) : List Char :=
  if c == '"' then ['\\', '"']
  else if c == '\\' then ['\\', '\\']
  else if c == '\x08' then ['\\', 'b']
  else if c == '\x0c' then ['\\', 'f']
  else if c == '\n' then ['\\', 'n']
  else if c == '\r' then ['\\', 'r']
  else if c == '\t' then ['\\', 't']
  else if c.toNat < 32 then
    ['\\', 'u', '0', '0', hexDigitChar (c.toNat / 16), hexDigitChar c.toNat]
  else [c]

/-- A JSON string literal, quotes included. -/
def jsonString (s : String) : List Char :=
  '"' :: s.data.foldr (fun c acc => jsonEscapeChar c ++ acc) ['"']

def jsonNullableString (s : Option String) : List Char :=
  match s with
  | none => "null".data
  | some v => jsonString v

def jsonBool (b : Bool) : List Char := if b then "true".data else "false".data

/-- `JSON.stringify` of the object written by `appendAuditEntry`
(spread of the entry with `messageContent` replaced by its truncation;
key order is the declaration order of `AuditLogEntry`). -/
def serializeAuditEntry (entry : AuditLogEntry) : List Char :=
  "\x7b\"timestamp\":".data ++ jsonString entry.timestamp ++
  ",\"targetChannel\":".data ++ jsonString entry.targetChannel ++
  ",\"recipient\":".data ++ jsonString entry.recipient ++
  ",\"messageContent\":".data ++ jsonString (truncateContent entry.messageContent) ++
  ",\"blocked\":".data ++ jsonBool entry.blocked ++
  ",\"blockReason\":".data ++ jsonNullableString entry.blockReason ++
  ",\"sessionId\":".data ++ jsonNullableString entry.sessionId ++ "\x7d".data

/-- `appendAuditEntry` from audit-log.ts, for an open file descriptor:
append one serialized line plus a newline to the file. -/
def appendAuditEntry (file : List Char) (entry : AuditLogEntry) : List Char :=
  file ++ serializeAuditEntry entry ++ ['\n']

/-- Split file contents at newline characters (each `'\n'` terminates
a line; a trailing fragment after the last `'\n'` is a final extra
piece). -/
def splitLines : List Char → List (List Char)
  | [] => [[]]
  | c :: cs =>
    let rest := splitLines cs
    if c = '\n' then [] :: rest
    else (c :: rest.headD []) :: rest.tail

/-! ## Vault crypto wrapper (soul-vault.ts)

`pbkdf2Sync`, `createCipheriv`/`createDecipheriv` (AES-256-GCM) are
`node:crypto` primitives, modelled as an abstract primitive bundle;
the wrapper logic (random salt/iv layout `salt ‖ iv ‖ tag ‖ ct`,
length check, error propagation) is embedded from the source.
`gcmDecrypt` returns `none` where the source throws (authentication
failure). -/

def SALT_LENGTH : Nat := 16

def IV_LENGTH : Nat := 12

def TAG_LENGTH : Nat := 16

structure CryptoPrim where
  pbkdf2 : String → List Nat → List Nat
  gcmEncrypt : List Nat → List Nat → List Nat → List Nat × List Nat
  gcmDecrypt : List Nat → List Nat → List Nat → List Nat → Option (List Nat)

/-- `encryptContent` from soul-vault.ts; the random `salt` and `iv`
drawn from `crypto.randomBytes` are explicit arguments, the plaintext
is its UTF-8 byte list. -/
def encryptContent (P : CryptoPrim) (plaintext : List Nat) (passphrase : String)
    (salt iv : List Nat) : List Nat :=
  let key := P.pbkdf2 passphrase salt
  let enc := P.gcmEncrypt key iv plaintext
  salt ++ iv ++ enc.2 ++ enc.1

/-- `decryptContent` from soul-vault.ts.  `none` models a thrown
error (`Invalid encrypted data: too short`, or GCM authentication
failure). -/
def decryptContent (P : CryptoPrim) (data : List Nat) (passphrase : String) :
    Option (List Nat) :=
  if data.length < SALT_LENGTH + IV_LENGTH + TAG_LENGTH then none
  else
    let salt := data.take SALT_LENGTH
    let iv := (data.drop SALT_LENGTH).take IV_LENGTH
    let tag := (data.drop (SALT_LENGTH + IV_LENGTH)).take TAG_LENGTH
    let encrypted := data.drop (SALT_LENGTH + IV_LENGTH + TAG_LENGTH)
    let key := P.pbkdf2 passphrase salt
    P.gcmDecrypt key iv tag encrypted

/-- A small executable primitive bundle used to instantiate
`CryptoPrim` on concrete inputs. -/
def toyKeyByte (pass : String) (salt : List Nat) : Nat :=
  (pass.data.foldl (fun a c => a + c.toNat) 0 +
    salt.foldl (fun a b => a + b) 0) % 256

def toyPrim : CryptoPrim :=
  { pbkdf2 := fun pass salt => List.replicate 32 (toyKeyByte pass salt),
    gcmEncrypt := fun key iv pt =>
      (pt.map (fun b => (b + key.headD 0) % 256),
       List.replicate 16 ((key.headD 0 + iv.foldl (fun a b => a + b) 0) % 256)),
    gcmDecrypt := fun key iv tag ct =>
      if tag = List.replicate 16 ((key.headD 0 + iv.foldl (fun a b => a + b) 0) % 256)
      then some (ct.map (fun b => (b + 256 - key.headD 0 % 256) % 256))
      else none }

/-- Resolver `rid` exists and is settled in state `st`. -/
def settledIn (st : SessionState) (rid : Nat) : Prop :=
  ∃ r ∈ st.resolvers, r.rid = rid ∧ r.settled = true

/-- Well-formedness of a session state: resolver ids are bounded by
the allocator and duplicate-free, the queue is duplicate-free, and
every queued id belongs to an unsettled resolver (every reachable
state satisfies this). -/
def SessionWF (st : SessionState) : Prop :=
  (∀ rid ∈ st.resolvers.map PendingResolver.rid, rid < st.nextId) ∧
  (st.resolvers.map PendingResolver.rid).Nodup ∧
  st.queue.Nodup ∧
  (∀ rid ∈ st.queue,
    (findResolver st.resolvers rid).map (fun r => r.settled) = some false)

/-! ## Theorems -/

theorem contains_iff_mem (l : List String) (a : String) : l.contains a = true ↔ a ∈ l :=
  List.elem_iff

/-- C7: with `trustLevel` below 1 (the default is 0), or with
`"message.send"` outside the `requireApproval` set,
`requestMessageSendApproval` returns `{allowed: true}` immediately:
the result is independent of the approval-window state and of both
external outcomes, and no audit entry, prompt or wait call is
produced. -/
theorem gate_no_intercept_allows (cfg : OpenClawConfig) (p : GateParams)
    (session : SessionState) (sessionNow : Int) (socketOutcome : SocketOutcome)
    (waitOutcome : Bool)
    (h : resolveTrustLevel cfg < 1 ∨ "message.send" ∉ resolveRequireApproval cfg) :
    requestMessageSendApproval cfg p session sessionNow socketOutcome waitOutcome =
      ({ allowed := true, decision := none, pendingTotp := none, promptMessage := none },
       noGateEffects) := by
  have hsi : shouldInterceptAction cfg "message.send" = false := by
    unfold shouldInterceptAction
    rcases h with h | h
    · simp [h]
    · by_cases ht : resolveTrustLevel cfg < 1
      · simp [ht]
      · simp only [ht, if_false]
        rw [← Bool.not_eq_true]
        intro hc
        exact h ((contains_iff_mem _ _).mp hc)
  unfold requestMessageSendApproval
  simp [hsi]

theorem gate_no_intercept_allows_witness :
    requestMessageSendApproval ⟨none⟩ ⟨"telegram", "bob", "hi", none⟩ initSessionState 0
      (Except.error "socket down") false =
      ({ allowed := true, decision := none, pendingTotp := none, promptMessage := none },
       noGateEffects) :=
  gate_no_intercept_allows _ _ _ _ _ _ (Or.inl (by decide))

/-- C2: in socket mode with gating active, the gate allows exactly
when the external decision is `allow-once` or `allow-always`; every
other decision and every transport/protocol error yields
`allowed = false` together with exactly one audit entry carrying
`blocked = true` and `blockReason = "trust_gate"` (fail-closed), and
an allowed result is never audited. -/
theorem socket_gate_fail_closed (cfg : OpenClawConfig) (p : GateParams)
    (session : SessionState) (sessionNow : Int) (waitOutcome : Bool)
    (socketOutcome : SocketOutcome)
    (hint : shouldInterceptAction cfg "message.send" = true)
    (hmode : resolveApprovalMode cfg = .socket) :
    ((requestMessageSendApproval cfg p session sessionNow socketOutcome waitOutcome).1.allowed
        = true ↔
      socketOutcome = .ok "allow-once" ∨ socketOutcome = .ok "allow-always") ∧
    ((requestMessageSendApproval cfg p session sessionNow socketOutcome waitOutcome).1.allowed
        = false →
      (requestMessageSendApproval cfg p session sessionNow socketOutcome waitOutcome).2.audits
        = [⟨p.channel, p.recipient, p.content, true, some "trust_gate", p.sessionId⟩]) ∧
    ((requestMessageSendApproval cfg p session sessionNow socketOutcome waitOutcome).1.allowed
        = true →
      (requestMessageSendApproval cfg p session sessionNow socketOutcome waitOutcome).2.audits
        = []) := by
  unfold requestMessageSendApproval
  simp only [hint, hmode]
  cases socketOutcome with
  | error e => simp [requestApprovalViaSocket]
  | ok d =>
    by_cases hd : (d == "allow-once" || d == "allow-always") = true
    · have hd' : d = "allow-once" ∨ d = "allow-always" := by
        rcases Bool.or_eq_true _ _ |>.mp hd with h | h
        · exact Or.inl (by exact of_decide_eq_true h)
        · exact Or.inr (by exact of_decide_eq_true h)
      simp [requestApprovalViaSocket, hd, noGateEffects]
      rcases hd' with h | h
      · exact Or.inl (by rw [h])
      · exact Or.inr (by rw [h])
    · have hd' : ¬ (d = "allow-once" ∨ d = "allow-always") := by
        intro hc
        apply hd
        rcases hc with h | h
        · exact Bool.or_eq_true _ _ |>.mpr (Or.inl (by rw [h]; rfl))
        · exact Bool.or_eq_true _ _ |>.mpr (Or.inr (by rw [h]; rfl))
      simp [requestApprovalViaSocket, hd]
      exact ⟨fun hc => hd' (Or.inl (Except.ok.inj hc)),
        fun hc => hd' (Or.inr (Except.ok.inj hc))⟩

theorem socket_gate_fail_closed_witness :
    ((requestMessageSendApproval ⟨some ⟨some ⟨some 1, none, none, none⟩⟩⟩
        ⟨"telegram", "bob", "hi", none⟩ initSessionState 0 (Except.error "boom")
        false).1.allowed = true ↔
      (Except.error "boom" : SocketOutcome) = .ok "allow-once" ∨
        (Except.error "boom" : SocketOutcome) = .ok "allow-always") ∧
    ((requestMessageSendApproval ⟨some ⟨some ⟨some 1, none, none, none⟩⟩⟩
        ⟨"telegram", "bob", "hi", none⟩ initSessionState 0 (Except.error "boom")
        false).1.allowed = false →
      (requestMessageSendApproval ⟨some ⟨some ⟨some 1, none, none, none⟩⟩⟩
        ⟨"telegram", "bob", "hi", none⟩ initSessionState 0 (Except.error "boom")
        false).2.audits = [⟨"telegram", "bob", "hi", true, some "trust_gate", none⟩]) ∧
    ((requestMessageSendApproval ⟨some ⟨some ⟨some 1, none, none, none⟩⟩⟩
        ⟨"telegram", "bob", "hi", none⟩ initSessionState 0 (Except.error "boom")
        false).1.allowed = true →
      (requestMessageSendApproval ⟨some ⟨some ⟨some 1, none, none, none⟩⟩⟩
        ⟨"telegram", "bob", "hi", none⟩ initSessionState 0 (Except.error "boom")
        false).2.audits = []) :=
  socket_gate_fail_closed _ ⟨"telegram", "bob", "hi", none⟩ _ _ _ _ (by decide) (by decide)

/-- C8: `checkRateLimit` denies exactly when a configured per-minute
limit is reached by the count of hour-pruned entries in the last 60
seconds, or a configured per-hour limit is reached by the hour-pruned
bucket size; with no limit configured it always allows.  In
particular, after recording 3 messages within one minute a check with
`maxPerMinute = 3` is denied, and 61 seconds later it is allowed. -/
theorem checkRateLimit_spec (channel : String) (accountId : Option String)
    (maxPerMinute maxPerHour : Option Nat) (now : Int) (bucket : List Int) :
    ((checkRateLimit channel accountId maxPerMinute maxPerHour now bucket).allowed = false ↔
      (∃ m, maxPerMinute = some m ∧
        m ≤ ((pruneExpired bucket ONE_HOUR_MS now).filter
          (fun t => now - ONE_MINUTE_MS ≤ t)).length) ∨
      (∃ m, maxPerHour = some m ∧ m ≤ (pruneExpired bucket ONE_HOUR_MS now).length)) ∧
    ((checkRateLimit "telegram" none (some 3) none 1002000
        (recordMessage 1002000 (recordMessage 1001000
          (recordMessage 1000000 [])))).allowed = false ∧
     (checkRateLimit "telegram" none (some 3) none 1063000
        (recordMessage 1002000 (recordMessage 1001000
          (recordMessage 1000000 [])))).allowed = true) := by
  refine ⟨?_, by decide, by decide⟩
  unfold checkRateLimit
  cases maxPerMinute with
  | none =>
    cases maxPerHour with
    | none =>
      rw [if_pos ⟨rfl, rfl⟩]
      apply iff_of_false (by simp)
      rintro (⟨m, hm, _⟩ | ⟨m, hm, _⟩) <;> exact Option.noConfusion hm
    | some mh =>
      rw [if_neg (by simp)]
      dsimp only
      by_cases hh : mh ≤ (pruneExpired bucket ONE_HOUR_MS now).length
      · rw [if_pos hh]
        exact iff_of_true rfl (Or.inr ⟨mh, rfl, hh⟩)
      · rw [if_neg hh]
        apply iff_of_false (by simp)
        rintro (⟨m, hm, _⟩ | ⟨m, hm, hle⟩)
        · exact Option.noConfusion hm
        · exact hh (Option.some.inj hm ▸ hle)
  | some mm =>
    rw [if_neg (by simp)]
    dsimp only
    by_cases hm : mm ≤ ((pruneExpired bucket ONE_HOUR_MS now).filter
        (fun t => now - ONE_MINUTE_MS ≤ t)).length
    · rw [if_pos hm]
      exact iff_of_true rfl (Or.inl ⟨mm, rfl, hm⟩)
    · rw [if_neg hm]
      cases maxPerHour with
      | none =>
        apply iff_of_false (by simp)
        rintro (⟨m, hmo, hle⟩ | ⟨m, hmo, _⟩)
        · exact hm (Option.some.inj hmo ▸ hle)
        · exact Option.noConfusion hmo
      | some mh =>
        dsimp only
        by_cases hh : mh ≤ (pruneExpired bucket ONE_HOUR_MS now).length
        · rw [if_pos hh]
          exact iff_of_true rfl (Or.inr ⟨mh, rfl, hh⟩)
        · rw [if_neg hh]
          apply iff_of_false (by simp)
          rintro (⟨m, hmo, hle⟩ | ⟨m, hmo, hle⟩)
          · exact hm (Option.some.inj hmo ▸ hle)
          · exact hh (Option.some.inj hmo ▸ hle)

/-- C1: in TOTP mode with gating active, an already-open approval
window yields an immediate `allow-once` with no side effects;
otherwise the gate emits the prompt (whose preview is the first 100
characters of the content, with an ellipsis when longer), calls
`waitForApprovalWindow("message.send", 120000)`, and a `false` wait
outcome yields `allowed = false`, `pendingTotp = true`, the prompt
text, and exactly one audit entry with `blockReason = "trust_gate"`. -/
theorem totp_gate_flow (cfg : OpenClawConfig) (p : GateParams) (session : SessionState)
    (sessionNow : Int) (socketOutcome : SocketOutcome)
    (hint : shouldInterceptAction cfg "message.send" = true)
    (hmode : resolveApprovalMode cfg = .totp) :
    (isActionApproved session sessionNow "message.send" = true →
      ∀ waitOutcome,
        requestMessageSendApproval cfg p session sessionNow socketOutcome waitOutcome =
          ({ allowed := true, decision := some "allow-once", pendingTotp := none,
             promptMessage := none }, noGateEffects)) ∧
    (isActionApproved session sessionNow "message.send" = false →
      requestMessageSendApproval cfg p session sessionNow socketOutcome false =
        ({ allowed := false, decision := none, pendingTotp := some true,
           promptMessage := some (totpPromptMessage cfg p) },
         { audits := [⟨p.channel, p.recipient, p.content, true, some "trust_gate",
            p.sessionId⟩],
           prompts := [totpPromptMessage cfg p],
           waitCalls := [("message.send", 120000)] })) ∧
    totpPromptMessage cfg p =
      "🔐 Action requires approval: send message to " ++ p.channel ++ ":" ++
        p.recipient ++ "\n" ++ "Preview: " ++
        (if p.content.length > 100 then String.mk (p.content.data.take 100) ++ "…"
         else p.content) ++
        "\n\n" ++ "Send your 6-digit authenticator code to approve (window: " ++
        toString (resolveTotpWindowMinutes cfg) ++ " min)." := by
  refine ⟨?_, ?_, rfl⟩
  · intro h waitOutcome
    unfold requestMessageSendApproval
    simp [hint, hmode, requestApprovalViaTotp, h]
  · intro h
    unfold requestMessageSendApproval
    simp [hint, hmode, requestApprovalViaTotp, h, DEFAULT_TOTP_WAIT_MS]

theorem totp_gate_flow_witness :
    requestMessageSendApproval ⟨some ⟨some ⟨some 1, none, some .totp, none⟩⟩⟩
      ⟨"telegram", "bob", "hi", none⟩ initSessionState 0 (Except.error "x") false =
      ({ allowed := false, decision := none, pendingTotp := some true,
         promptMessage := some (totpPromptMessage
           ⟨some ⟨some ⟨some 1, none, some .totp, none⟩⟩⟩
           ⟨"telegram", "bob", "hi", none⟩) },
       { audits := [⟨"telegram", "bob", "hi", true, some "trust_gate", none⟩],
         prompts := [totpPromptMessage ⟨some ⟨some ⟨some 1, none, some .totp, none⟩⟩⟩
           ⟨"telegram", "bob", "hi", none⟩],
         waitCalls := [("message.send", 120000)] }) :=
  (totp_gate_flow ⟨some ⟨some ⟨some 1, none, some .totp, none⟩⟩⟩
    ⟨"telegram", "bob", "hi", none⟩ initSessionState 0 (Except.error "x")
    (by decide) (by decide)).2.1 (by decide)

theorem hexDigitChar_ne_newline (n : Nat) : hexDigitChar n ≠ '\n' := by
  unfold hexDigitChar
  rw [List.getD_eq_getElem?_getD]
  cases h16 : "0123456789abcdef".data[n % 16]? with
  | none => decide
  | some c =>
    have hc : c ∈ "0123456789abcdef".data := List.getElem?_mem h16
    simp only [Option.getD_some]
    intro heq
    rw [heq] at hc
    revert hc
    decide

theorem jsonEscapeChar_ne_newline (c : Char) : ∀ ch ∈ jsonEscapeChar c, ch ≠ '\n' := by
  intro ch hch heq
  subst heq
  revert hch
  unfold jsonEscapeChar
  split_ifs with h1 h2 h3 h4 h5 h6 h7 h8
  · decide
  · decide
  · decide
  · decide
  · decide
  · decide
  · decide
  · intro hch
    simp only [List.mem_cons, List.mem_singleton, List.not_mem_nil, or_false] at hch
    rcases hch with h | h | h | h | h | h
    · exact absurd h (by decide)
    · exact absurd h (by decide)
    · exact absurd h (by decide)
    · exact absurd h (by decide)
    · exact hexDigitChar_ne_newline _ h.symm
    · exact hexDigitChar_ne_newline _ h.symm
  · intro hch
    simp only [List.mem_singleton] at hch
    rw [← hch] at h8
    exact h8 (by decide)

theorem jsonString_ne_newline (s : String) : ∀ ch ∈ jsonString s, ch ≠ '\n' := by
  unfold jsonString
  have haux : ∀ (l : List Char) (acc : List Char), (∀ ch ∈ acc, ch ≠ '\n') →
      ∀ ch ∈ l.foldr (fun c acc => jsonEscapeChar c ++ acc) acc, ch ≠ '\n' := by
    intro l
    induction l with
    | nil => intro acc hacc ch hch; exact hacc ch hch
    | cons c cs ih =>
      intro acc hacc ch hch
      simp only [List.foldr_cons, List.mem_append] at hch
      rcases hch with h | h
      · exact jsonEscapeChar_ne_newline c ch h
      · exact ih acc hacc ch h
  intro ch hch
  simp only [List.mem_cons] at hch
  rcases hch with h | h
  · rw [h]; decide
  · exact haux s.data ['"'] (by decide) ch h

theorem jsonNullableString_ne_newline (s : Option String) :
    ∀ ch ∈ jsonNullableString s, ch ≠ '\n' := by
  cases s with
  | none =>
    intro ch hch heq
    subst heq
    exact absurd hch (by decide)
  | some v => exact jsonString_ne_newline v

theorem serializeAuditEntry_ne_newline (e : AuditLogEntry) :
    ∀ ch ∈ serializeAuditEntry e, ch ≠ '\n' := by
  unfold serializeAuditEntry
  intro ch hch heq
  subst heq
  simp only [List.append_assoc, List.mem_append] at hch
  rcases hch with h | h | h | h | h | h | h | h | h | h | h | h | h | h | h
  · exact absurd h (by decide)
  · exact jsonString_ne_newline _ _ h rfl
  · exact absurd h (by decide)
  · exact jsonString_ne_newline _ _ h rfl
  · exact absurd h (by decide)
  · exact jsonString_ne_newline _ _ h rfl
  · exact absurd h (by decide)
  · exact jsonString_ne_newline _ _ h rfl
  · exact absurd h (by decide)
  · revert h
    cases e.blocked <;> decide
  · exact absurd h (by decide)
  · exact jsonNullableString_ne_newline _ _ h rfl
  · exact absurd h (by decide)
  · exact jsonNullableString_ne_newline _ _ h rfl
  · exact absurd h (by decide)

theorem splitLines_append_line (l rest : List Char) (hl : ∀ ch ∈ l, ch ≠ '\n') :
    splitLines (l ++ '\n' :: rest) = l :: splitLines rest := by
  induction l with
  | nil => simp [splitLines]
  | cons c cs ih =>
    have hc : c ≠ '\n' := hl c (by simp)
    have ih' := ih (fun ch h => hl ch (by simp [h]))
    simp only [List.cons_append, splitLines, List.append_eq, if_neg hc, ih',
      List.headD_cons, List.tail_cons]

/-- C9: each `appendAuditEntry` call appends exactly one
newline-terminated JSON line (the serialization contains no raw
newline, and `messageContent` is truncated to exactly 10,000
characters when longer, left unchanged otherwise); appending two
entries to an empty file yields exactly two lines, each the
serialization of its entry. -/
theorem auditAppend_lines (e1 e2 : AuditLogEntry) (c : String) :
    splitLines (appendAuditEntry (appendAuditEntry [] e1) e2) =
      [serializeAuditEntry e1, serializeAuditEntry e2, []] ∧
    (∀ e : AuditLogEntry, ∀ ch ∈ serializeAuditEntry e, ch ≠ '\n') ∧
    (∀ (file : List Char) (e : AuditLogEntry),
      appendAuditEntry file e = file ++ serializeAuditEntry e ++ ['\n']) ∧
    (truncateContent c).length = min c.length MAX_CONTENT_LENGTH ∧
    (c.length ≤ MAX_CONTENT_LENGTH → truncateContent c = c) := by
  refine ⟨?_, serializeAuditEntry_ne_newline, fun file e => rfl, ?_, ?_⟩
  · have h1 := serializeAuditEntry_ne_newline e1
    have h2 := serializeAuditEntry_ne_newline e2
    unfold appendAuditEntry
    have heq : ([] ++ serializeAuditEntry e1 ++ ['\n']) ++ serializeAuditEntry e2 ++
        ['\n'] = serializeAuditEntry e1 ++ '\n' ::
          (serializeAuditEntry e2 ++ '\n' :: []) := by
      simp
    rw [heq, splitLines_append_line _ _ h1, splitLines_append_line _ _ h2]
    rfl
  · unfold truncateContent
    by_cases h : c.length ≤ MAX_CONTENT_LENGTH
    · rw [if_pos h]
      exact (Nat.min_eq_left h).symm
    · rw [if_neg h]
      show (c.data.take MAX_CONTENT_LENGTH).length = _
      rw [List.length_take]
      exact Nat.min_comm _ _ ▸ rfl
  · intro h
    unfold truncateContent
    rw [if_pos h]

theorem auditAppend_lines_witness :
    (truncateContent "hi").length = min "hi".length MAX_CONTENT_LENGTH ∧
      truncateContent "hi" = "hi" := by
  have h := auditAppend_lines ⟨"t", "c", "r", "m", false, none, none⟩
    ⟨"t", "c", "r", "m", true, some "trust_gate", none⟩ "hi"
  exact ⟨h.2.2.2.1, h.2.2.2.2 (by decide)⟩

theorem parse_blob (salt iv tag ct : List Nat) (hsalt : salt.length = 16)
    (hiv : iv.length = 12) (htag : tag.length = 16) :
    (salt ++ iv ++ tag ++ ct).take 16 = salt ∧
    ((salt ++ iv ++ tag ++ ct).drop 16).take 12 = iv ∧
    ((salt ++ iv ++ tag ++ ct).drop 28).take 16 = tag ∧
    (salt ++ iv ++ tag ++ ct).drop 44 = ct ∧
    ¬ (salt ++ iv ++ tag ++ ct).length < 44 := by
  have hdata : salt ++ iv ++ tag ++ ct = salt ++ (iv ++ (tag ++ ct)) := by
    simp [List.append_assoc]
  have hdata28 : salt ++ iv ++ tag ++ ct = (salt ++ iv) ++ (tag ++ ct) := by
    simp [List.append_assoc]
  have h28 : (salt ++ iv).length = 28 := by
    rw [List.length_append, hsalt, hiv]
  have h44 : (salt ++ iv ++ tag).length = 44 := by
    rw [List.length_append, List.length_append, hsalt, hiv, htag]
  refine ⟨?_, ?_, ?_, ?_, ?_⟩
  · rw [hdata, List.take_left' hsalt]
  · rw [hdata, List.drop_left' hsalt, List.take_left' hiv]
  · rw [hdata28, List.drop_left' h28, List.take_left' htag]
  · rw [List.drop_left' h44]
  · rw [List.length_append, h44]
    omega

/-- C6: the vault wrapper round-trips any plaintext byte string under
the correct passphrase, propagates every authentication failure of the
underlying AES-GCM primitive (wrong passphrase, tampered tag) as an
error instead of returning data, and rejects any blob shorter than
the 44-byte `salt ‖ iv ‖ tag` header outright.  The `node:crypto`
primitives are abstract (`CryptoPrim`); the hypotheses state their
standard behaviour at the inputs involved. -/
theorem vault_roundtrip_fail_closed (P : CryptoPrim) (plaintext : List Nat)
    (pass pass' : String) (salt iv tag' shortData : List Nat)
    (hsalt : salt.length = 16) (hiv : iv.length = 12)
    (htag : (P.gcmEncrypt (P.pbkdf2 pass salt) iv plaintext).2.length = 16)
    (hdec : P.gcmDecrypt (P.pbkdf2 pass salt) iv
      (P.gcmEncrypt (P.pbkdf2 pass salt) iv plaintext).2
      (P.gcmEncrypt (P.pbkdf2 pass salt) iv plaintext).1 = some plaintext)
    (hwrong : P.gcmDecrypt (P.pbkdf2 pass' salt) iv
      (P.gcmEncrypt (P.pbkdf2 pass salt) iv plaintext).2
      (P.gcmEncrypt (P.pbkdf2 pass salt) iv plaintext).1 = none)
    (htagLen : tag'.length = 16)
    (hflip : P.gcmDecrypt (P.pbkdf2 pass salt) iv tag'
      (P.gcmEncrypt (P.pbkdf2 pass salt) iv plaintext).1 = none)
    (hshort : shortData.length < 44) :
    decryptContent P (encryptContent P plaintext pass salt iv) pass = some plaintext ∧
    decryptContent P (encryptContent P plaintext pass salt iv) pass' = none ∧
    decryptContent P (salt ++ iv ++ tag' ++
      (P.gcmEncrypt (P.pbkdf2 pass salt) iv plaintext).1) pass = none ∧
    decryptContent P shortData pass = none := by
  obtain ⟨hp1, hp2, hp3, hp4, hp5⟩ :=
    parse_blob salt iv (P.gcmEncrypt (P.pbkdf2 pass salt) iv plaintext).2
      (P.gcmEncrypt (P.pbkdf2 pass salt) iv plaintext).1 hsalt hiv htag
  obtain ⟨hq1, hq2, hq3, hq4, hq5⟩ :=
    parse_blob salt iv tag' (P.gcmEncrypt (P.pbkdf2 pass salt) iv plaintext).1
      hsalt hiv htagLen
  refine ⟨?_, ?_, ?_, ?_⟩
  · unfold decryptContent encryptContent
    simp only [SALT_LENGTH, IV_LENGTH, TAG_LENGTH]
    rw [if_neg hp5, hp1, hp2, hp3, hp4]
    exact hdec
  · unfold decryptContent encryptContent
    simp only [SALT_LENGTH, IV_LENGTH, TAG_LENGTH]
    rw [if_neg hp5, hp1, hp2, hp3, hp4]
    exact hwrong
  · unfold decryptContent
    simp only [SALT_LENGTH, IV_LENGTH, TAG_LENGTH]
    rw [if_neg hq5, hq1, hq2, hq3, hq4]
    exact hflip
  · unfold decryptContent
    simp only [SALT_LENGTH, IV_LENGTH, TAG_LENGTH]
    rw [if_pos hshort]

theorem vault_roundtrip_fail_closed_witness :
    decryptContent toyPrim (encryptContent toyPrim [104, 105] "a"
      (List.replicate 16 1) (List.replicate 12 2)) "a" = some [104, 105] ∧
    decryptContent toyPrim (encryptContent toyPrim [104, 105] "a"
      (List.replicate 16 1) (List.replicate 12 2)) "b" = none ∧
    decryptContent toyPrim (List.replicate 16 1 ++ List.replicate 12 2 ++
      List.replicate 16 200 ++
      (toyPrim.gcmEncrypt (toyPrim.pbkdf2 "a" (List.replicate 16 1))
        (List.replicate 12 2) [104, 105]).1) "a" = none ∧
    decryptContent toyPrim [1, 2, 3] "a" = none :=
  vault_roundtrip_fail_closed toyPrim [104, 105] "a" "b" (List.replicate 16 1)
    (List.replicate 12 2) (List.replicate 16 200) [1, 2, 3] (by decide) (by decide)
    (by decide) (by decide) (by decide) (by decide) (by decide) (by decide)

theorem findResolver_mem {rs : List PendingResolver} {rid : Nat} {r : PendingResolver}
    (h : findResolver rs rid = some r) : r ∈ rs ∧ r.rid = rid := by
  refine ⟨List.mem_of_find?_eq_some h, ?_⟩
  have hp := List.find?_some h
  exact eq_of_beq hp

theorem find_of_mem_nodup {rs : List PendingResolver} {r : PendingResolver}
    (hnd : (rs.map PendingResolver.rid).Nodup) (hr : r ∈ rs) :
    findResolver rs r.rid = some r := by
  induction rs with
  | nil => cases hr
  | cons hd tl ih =>
    rw [List.map_cons, List.nodup_cons] at hnd
    rcases List.mem_cons.mp hr with h | h
    · subst h
      unfold findResolver
      rw [List.find?_cons]
      have hself : (r.rid == r.rid) = true := beq_self_eq_true _
      simp [hself]
    · have hne : (hd.rid == r.rid) = false := by
        rw [beq_eq_false_iff_ne]
        intro heq
        exact hnd.1 (heq ▸ List.mem_map_of_mem PendingResolver.rid h)
      unfold findResolver
      rw [List.find?_cons]
      simp only [hne]
      exact ih hnd.2 h

theorem markSettled_rid (r : PendingResolver) (rid : Nat) :
    (if r.rid == rid then { r with settled := true } else r).rid = r.rid := by
  by_cases h : (r.rid == rid) = true <;> simp [h]

theorem markSettled_map_rid (rs : List PendingResolver) (rid : Nat) :
    (markSettled rs rid).map PendingResolver.rid = rs.map PendingResolver.rid := by
  unfold markSettled
  rw [List.map_map]
  exact List.map_congr_left (fun r _ => markSettled_rid r rid)

theorem findResolver_markSettled (rs : List PendingResolver) (rid rid' : Nat) :
    findResolver (markSettled rs rid) rid' =
      (findResolver rs rid').map
        (fun r => if r.rid == rid then { r with settled := true } else r) := by
  induction rs with
  | nil => rfl
  | cons hd tl ih =>
    show findResolver ((if hd.rid == rid then { hd with settled := true } else hd) ::
      markSettled tl rid) rid' = _
    have heq : (((if hd.rid == rid then { hd with settled := true } else hd) :
        PendingResolver).rid == rid') = (hd.rid == rid') := by
      rw [markSettled_rid]
    unfold findResolver
    rw [List.find?_cons, List.find?_cons]
    simp only [heq]
    cases h : (hd.rid == rid') with
    | true => rfl
    | false => exact ih

theorem findResolver_markSettled_ne {rs : List PendingResolver} {rid rid' : Nat}
    (h : rid' ≠ rid) :
    findResolver (markSettled rs rid) rid' = findResolver rs rid' := by
  rw [findResolver_markSettled]
  cases hf : findResolver rs rid' with
  | none => rfl
  | some r =>
    have hr := (findResolver_mem hf).2
    have hne : (r.rid == rid) = false := by
      rw [beq_eq_false_iff_ne]
      intro hbeq
      exact h (hr ▸ hbeq)
    simp [hne]
    exact fun heq => absurd heq (beq_eq_false_iff_ne.mp hne)

theorem markSettled_fix {r : PendingResolver} (hs : r.settled = true) (rid : Nat) :
    (if r.rid == rid then { r with settled := true } else r) = r := by
  by_cases h : (r.rid == rid) = true
  · rw [if_pos h]
    cases r
    simp_all
  · rw [if_neg h]

theorem settleResolver_of_unsettled {rs : List PendingResolver} {rid : Nat}
    {r : PendingResolver} (h : findResolver rs rid = some r) (hs : r.settled = false)
    (b : Bool) : settleResolver rs rid b = (markSettled rs rid, [(rid, b)]) := by
  unfold settleResolver
  rw [h]
  simp [hs]

theorem settleResolver_of_settled {rs : List PendingResolver} {rid : Nat}
    {r : PendingResolver} (h : findResolver rs rid = some r) (hs : r.settled = true)
    (b : Bool) : settleResolver rs rid b = (rs, []) := by
  unfold settleResolver
  rw [h]
  simp [hs]

theorem settleResolver_of_none {rs : List PendingResolver} {rid : Nat}
    (h : findResolver rs rid = none) (b : Bool) : settleResolver rs rid b = (rs, []) := by
  unfold settleResolver
  rw [h]

theorem find?_append_some {α : Type} {p : α → Bool} {l1 l2 : List α} {x : α}
    (h : l1.find? p = some x) : (l1 ++ l2).find? p = some x := by
  induction l1 with
  | nil => cases h
  | cons hd tl ih =>
    by_cases hp : p hd = true
    · rw [List.find?_cons_of_pos _ hp] at h
      rw [List.cons_append, List.find?_cons_of_pos _ hp]
      exact h
    · rw [List.find?_cons_of_neg _ hp] at h
      rw [List.cons_append, List.find?_cons_of_neg _ hp]
      exact ih h

theorem find?_append_none {α : Type} {p : α → Bool} {l1 l2 : List α}
    (h : l1.find? p = none) : (l1 ++ l2).find? p = l2.find? p := by
  induction l1 with
  | nil => rfl
  | cons hd tl ih =>
    by_cases hp : p hd = true
    · rw [List.find?_cons_of_pos _ hp] at h
      cases h
    · rw [List.find?_cons_of_neg _ hp] at h
      rw [List.cons_append, List.find?_cons_of_neg _ hp]
      exact ih h

theorem releaseMatching_spec (acts : List String) :
    ∀ (q : List Nat) (rs : List PendingResolver),
    (rs.map PendingResolver.rid).Nodup → q.Nodup →
    (∀ rid ∈ q, (findResolver rs rid).map (fun r => r.settled) = some false) →
    ((releaseMatching acts rs q).1.map PendingResolver.rid =
      rs.map PendingResolver.rid) ∧
    (releaseMatching acts rs q).2.2.Sublist q ∧
    (∀ rid, rid ∉ q →
      findResolver (releaseMatching acts rs q).1 rid = findResolver rs rid) ∧
    (∀ rid ∈ q, ∀ r, findResolver rs rid = some r →
      (acts.contains r.action = true →
        (rid, true) ∈ (releaseMatching acts rs q).2.1 ∧
        rid ∉ (releaseMatching acts rs q).2.2 ∧
        findResolver (releaseMatching acts rs q).1 rid =
          some { r with settled := true }) ∧
      (acts.contains r.action = false →
        rid ∈ (releaseMatching acts rs q).2.2 ∧
        findResolver (releaseMatching acts rs q).1 rid = some r)) ∧
    ((releaseMatching acts rs q).2.1.map Prod.fst).Nodup ∧
    (∀ e ∈ (releaseMatching acts rs q).2.1, e.1 ∈ q ∧ e.2 = true) := by
  intro q
  induction q with
  | nil =>
    intro rs hnd hq hlink
    refine ⟨rfl, List.Sublist.refl _, fun _ _ => rfl, ?_, List.nodup_nil, ?_⟩
    · intro rid hrid
      exact absurd hrid (List.not_mem_nil rid)
    · intro e he
      exact absurd he (List.not_mem_nil e)
  | cons rid₀ rest ih =>
    intro rs hnd hq hlink
    obtain ⟨hq0, hqrest⟩ := List.nodup_cons.mp hq
    have hl0 := hlink rid₀ (List.mem_cons_self _ _)
    cases hf0 : findResolver rs rid₀ with
    | none => rw [hf0] at hl0; cases hl0
    | some r₀ =>
    rw [hf0] at hl0
    have hs0 : r₀.settled = false := by simpa using hl0
    have hr0 : r₀.rid = rid₀ := (findResolver_mem hf0).2
    by_cases hact : acts.contains r₀.action = true
    · -- matching head: settled true and dropped from the queue
      have hstep : releaseMatching acts rs (rid₀ :: rest) =
          ((releaseMatching acts (markSettled rs rid₀) rest).1,
           (rid₀, true) :: (releaseMatching acts (markSettled rs rid₀) rest).2.1,
           (releaseMatching acts (markSettled rs rid₀) rest).2.2) := by
        conv_lhs => rw [releaseMatching]
        rw [hf0]
        simp only [hact, if_true]
        rw [settleResolver_of_unsettled hf0 hs0 true]
        rfl
      have hnd' : ((markSettled rs rid₀).map PendingResolver.rid).Nodup := by
        rw [markSettled_map_rid]; exact hnd
      have hlink' : ∀ rid ∈ rest,
          (findResolver (markSettled rs rid₀) rid).map (fun r => r.settled) =
            some false := by
        intro rid hrid
        have hne : rid ≠ rid₀ := fun heq => hq0 (heq ▸ hrid)
        rw [findResolver_markSettled_ne hne]
        exact hlink rid (List.mem_cons_of_mem _ hrid)
      obtain ⟨ih1, ih2, ih3, ih4, ih5, ih6⟩ :=
        ih (markSettled rs rid₀) hnd' hqrest hlink'
      rw [hstep]
      refine ⟨?_, ?_, ?_, ?_, ?_, ?_⟩
      · rw [ih1, markSettled_map_rid]
      · exact ih2.cons rid₀
      · intro rid hrid
        have hrest : rid ∉ rest := fun hmem => hrid (List.mem_cons_of_mem _ hmem)
        have hne : rid ≠ rid₀ := fun heq => hrid (heq ▸ List.mem_cons_self _ _)
        rw [ih3 rid hrest, findResolver_markSettled_ne hne]
      · intro rid hrid r hfr
        rcases List.mem_cons.mp hrid with heq | hmem
        · subst heq
          have hrr : r = r₀ := by rw [hfr] at hf0; exact Option.some.inj hf0
          subst hrr
          constructor
          · intro _
            refine ⟨List.mem_cons_self _ _, ?_, ?_⟩
            · exact fun hmem => hq0 (ih2.subset hmem)
            · rw [ih3 rid hq0, findResolver_markSettled, hf0]
              have hbeq : (r.rid == rid) = true := by rw [hr0]; exact beq_self_eq_true _
              simp [hbeq]
              exact fun hne => absurd hr0 hne
          · intro hactF
            exact Bool.noConfusion (hact ▸ hactF)
        · have hne : rid ≠ rid₀ := fun heq => hq0 (heq ▸ hmem)
          have hfr' : findResolver (markSettled rs rid₀) rid = some r := by
            rw [findResolver_markSettled_ne hne]; exact hfr
          obtain ⟨htrue, hfalse⟩ := ih4 rid hmem r hfr'
          constructor
          · intro ha
            obtain ⟨h1, h2, h3⟩ := htrue ha
            exact ⟨List.mem_cons_of_mem _ h1, h2, h3⟩
          · intro ha
            exact hfalse ha
      · rw [List.map_cons, List.nodup_cons]
        refine ⟨?_, ih5⟩
        intro hmem
        obtain ⟨e, he, hfst⟩ := List.mem_map.mp hmem
        have hfst' : e.1 = rid₀ := hfst
        exact hq0 (hfst' ▸ (ih6 e he).1)
      · intro e he
        rcases List.mem_cons.mp he with heq | hmem
        · subst heq
          exact ⟨List.mem_cons_self _ _, rfl⟩
        · obtain ⟨h1, h2⟩ := ih6 e hmem
          exact ⟨List.mem_cons_of_mem _ h1, h2⟩
    · -- non-matching head: kept in the remaining queue untouched
      have hactF : acts.contains r₀.action = false := by
        revert hact
        cases acts.contains r₀.action <;> simp
      have hstep : releaseMatching acts rs (rid₀ :: rest) =
          ((releaseMatching acts rs rest).1,
           (releaseMatching acts rs rest).2.1,
           rid₀ :: (releaseMatching acts rs rest).2.2) := by
        conv_lhs => rw [releaseMatching]
        rw [hf0]
        simp only [hactF, Bool.false_eq_true, if_false]
      have hlink' : ∀ rid ∈ rest,
          (findResolver rs rid).map (fun r => r.settled) = some false :=
        fun rid hrid => hlink rid (List.mem_cons_of_mem _ hrid)
      obtain ⟨ih1, ih2, ih3, ih4, ih5, ih6⟩ := ih rs hnd hqrest hlink'
      rw [hstep]
      refine ⟨ih1, ih2.cons₂ rid₀, ?_, ?_, ih5, ?_⟩
      · intro rid hrid
        exact ih3 rid (fun hmem => hrid (List.mem_cons_of_mem _ hmem))
      · intro rid hrid r hfr
        rcases List.mem_cons.mp hrid with heq | hmem
        · subst heq
          have hrr : r = r₀ := by rw [hfr] at hf0; exact Option.some.inj hf0
          subst hrr
          constructor
          · intro ha
            exact Bool.noConfusion (ha ▸ hactF)
          · intro _
            refine ⟨List.mem_cons_self _ _, ?_⟩
            rw [ih3 rid hq0]
            exact hfr
        · have hne : rid ≠ rid₀ := fun heq => hq0 (heq ▸ hmem)
          obtain ⟨htrue, hfalse⟩ := ih4 rid hmem r hfr
          constructor
          · intro ha
            obtain ⟨h1, h2, h3⟩ := htrue ha
            refine ⟨h1, ?_, h3⟩
            intro hmem'
            rcases List.mem_cons.mp hmem' with heq | hm
            · exact hne heq
            · exact h2 hm
          · intro ha
            obtain ⟨h1, h2⟩ := hfalse ha
            exact ⟨List.mem_cons_of_mem _ h1, h2⟩
      · intro e he
        obtain ⟨h1, h2⟩ := ih6 e he
        exact ⟨List.mem_cons_of_mem _ h1, h2⟩

/-- C3: `startApprovalWindow` installs the new window (whose action
set defaults to `{"message.send"}`) and, before returning, settles
with `true` every queued resolver whose action is in the approved set,
removing it from the queue; every queued resolver whose action is not
in the set stays queued and unsettled.  `SessionWF` is the invariant
of every reachable state. -/
theorem startApprovalWindow_releases_matching (st : SessionState) (now : Int)
    (params : StartWindowParams) (hwf : SessionWF st) :
    ((startApprovalWindow st now params).1.activeWindow =
      some { expiresAt := now + params.durationMinutes * 60 * 1000,
             approvedActions := params.actions.getD ["message.send"],
             channel := params.channel.getD "all",
             accountId := params.accountId }) ∧
    (∀ rid ∈ st.queue, ∀ r ∈ st.resolvers, r.rid = rid →
      ((params.actions.getD ["message.send"]).contains r.action = true →
        (rid, true) ∈ (startApprovalWindow st now params).2 ∧
        rid ∉ (startApprovalWindow st now params).1.queue ∧
        settledIn (startApprovalWindow st now params).1 rid) ∧
      ((params.actions.getD ["message.send"]).contains r.action = false →
        rid ∈ (startApprovalWindow st now params).1.queue ∧
        ∃ r' ∈ (startApprovalWindow st now params).1.resolvers,
          r'.rid = rid ∧ r'.settled = false)) := by
  obtain ⟨hb, hnd, hq, hlink⟩ := hwf
  obtain ⟨s1, s2, s3, s4, s5, s6⟩ :=
    releaseMatching_spec (params.actions.getD ["message.send"]) st.queue
      st.resolvers hnd hq hlink
  refine ⟨rfl, ?_⟩
  intro rid hrid r hr hrideq
  have hfind : findResolver st.resolvers rid = some r := by
    rw [← hrideq]
    exact find_of_mem_nodup hnd hr
  obtain ⟨htrue, hfalse⟩ := s4 rid hrid r hfind
  constructor
  · intro ha
    obtain ⟨h1, h2, h3⟩ := htrue ha
    refine ⟨h1, h2, ?_⟩
    obtain ⟨hmem, hridr⟩ := findResolver_mem h3
    exact ⟨{ r with settled := true }, hmem, hridr, rfl⟩
  · intro ha
    obtain ⟨h1, h2⟩ := hfalse ha
    refine ⟨h1, ?_⟩
    obtain ⟨hmem, hridr⟩ := findResolver_mem h2
    have hset : r.settled = false := by
      have := hlink rid hrid
      rw [hfind] at this
      simpa using this
    exact ⟨r, hmem, hridr, hset⟩

theorem startApprovalWindow_releases_matching_witness :
    ((startApprovalWindow
        { activeWindow := none,
          resolvers := [⟨0, "message.send", false⟩, ⟨1, "other.action", false⟩,
            ⟨2, "message.send", false⟩],
          queue := [0, 1, 2], nextId := 3 } 1000
        ⟨5, none, none, none⟩).1.activeWindow =
      some { expiresAt := 301000, approvedActions := ["message.send"],
             channel := "all", accountId := none }) ∧
    ((0, true) ∈ (startApprovalWindow
        { activeWindow := none,
          resolvers := [⟨0, "message.send", false⟩, ⟨1, "other.action", false⟩,
            ⟨2, "message.send", false⟩],
          queue := [0, 1, 2], nextId := 3 } 1000 ⟨5, none, none, none⟩).2) ∧
    (1 ∈ (startApprovalWindow
        { activeWindow := none,
          resolvers := [⟨0, "message.send", false⟩, ⟨1, "other.action", false⟩,
            ⟨2, "message.send", false⟩],
          queue := [0, 1, 2], nextId := 3 } 1000 ⟨5, none, none, none⟩).1.queue) := by
  have h := startApprovalWindow_releases_matching
    { activeWindow := none,
      resolvers := [⟨0, "message.send", false⟩, ⟨1, "other.action", false⟩,
        ⟨2, "message.send", false⟩],
      queue := [0, 1, 2], nextId := 3 } 1000 ⟨5, none, none, none⟩
    (by constructor
        · decide
        · refine ⟨by decide, by decide, ?_⟩
          decide)
  refine ⟨h.1, ?_, ?_⟩
  · exact ((h.2 0 (by decide) ⟨0, "message.send", false⟩ (by decide) rfl).1
      (by decide)).1
  · exact ((h.2 1 (by decide) ⟨1, "other.action", false⟩ (by decide) rfl).2
      (by decide)).1

theorem settledIn_iff_find {st : SessionState} {rid : Nat}
    (hnd : (st.resolvers.map PendingResolver.rid).Nodup) :
    settledIn st rid ↔
      (findResolver st.resolvers rid).map (fun r => r.settled) = some true := by
  constructor
  · rintro ⟨r, hmem, hrid, hset⟩
    have := find_of_mem_nodup hnd hmem
    rw [hrid] at this
    rw [this]
    simp [hset]
  · intro h
    cases hf : findResolver st.resolvers rid with
    | none => rw [hf] at h; cases h
    | some r =>
      rw [hf] at h
      obtain ⟨hmem, hrid⟩ := findResolver_mem hf
      exact ⟨r, hmem, hrid, by simpa using h⟩

theorem lazyExpire_resolvers (st : SessionState) (now : Int) :
    (lazyExpire st now).resolvers = st.resolvers ∧
    (lazyExpire st now).queue = st.queue ∧
    (lazyExpire st now).nextId = st.nextId := by
  unfold lazyExpire
  cases st.activeWindow with
  | none => exact ⟨rfl, rfl, rfl⟩
  | some w =>
    dsimp only
    by_cases h : w.expiresAt ≤ now
    · rw [if_pos h]; exact ⟨rfl, rfl, rfl⟩
    · rw [if_neg h]; exact ⟨rfl, rfl, rfl⟩

theorem releaseMatching_emits_settled (acts : List String) :
    ∀ (q : List Nat) (rs : List PendingResolver),
    (rs.map PendingResolver.rid).Nodup → q.Nodup →
    (∀ rid ∈ q, (findResolver rs rid).map (fun r => r.settled) = some false) →
    ∀ e ∈ (releaseMatching acts rs q).2.1,
      (findResolver (releaseMatching acts rs q).1 e.1).map (fun r => r.settled) =
        some true := by
  intro q
  induction q with
  | nil =>
    intro rs _ _ _ e he
    exact absurd he (List.not_mem_nil e)
  | cons rid₀ rest ih =>
    intro rs hnd hq hlink
    obtain ⟨hq0, hqrest⟩ := List.nodup_cons.mp hq
    have hl0 := hlink rid₀ (List.mem_cons_self _ _)
    cases hf0 : findResolver rs rid₀ with
    | none => rw [hf0] at hl0; cases hl0
    | some r₀ =>
    rw [hf0] at hl0
    have hs0 : r₀.settled = false := by simpa using hl0
    have hr0 : r₀.rid = rid₀ := (findResolver_mem hf0).2
    by_cases hact : acts.contains r₀.action = true
    · have hstep : releaseMatching acts rs (rid₀ :: rest) =
          ((releaseMatching acts (markSettled rs rid₀) rest).1,
           (rid₀, true) :: (releaseMatching acts (markSettled rs rid₀) rest).2.1,
           (releaseMatching acts (markSettled rs rid₀) rest).2.2) := by
        conv_lhs => rw [releaseMatching]
        rw [hf0]
        simp only [hact, if_true]
        rw [settleResolver_of_unsettled hf0 hs0 true]
        rfl
      have hnd' : ((markSettled rs rid₀).map PendingResolver.rid).Nodup := by
        rw [markSettled_map_rid]; exact hnd
      have hlink' : ∀ rid ∈ rest,
          (findResolver (markSettled rs rid₀) rid).map (fun r => r.settled) =
            some false := by
        intro rid hrid
        have hne : rid ≠ rid₀ := fun heq => hq0 (heq ▸ hrid)
        rw [findResolver_markSettled_ne hne]
        exact hlink rid (List.mem_cons_of_mem _ hrid)
      obtain ⟨_, _, s3, _, _, _⟩ :=
        releaseMatching_spec acts rest (markSettled rs rid₀) hnd' hqrest hlink'
      rw [hstep]
      intro e he
      rcases List.mem_cons.mp he with heq | hmem
      · subst heq
        show (findResolver (releaseMatching acts (markSettled rs rid₀) rest).1
          rid₀).map (fun r => r.settled) = some true
        rw [s3 rid₀ hq0, findResolver_markSettled, hf0]
        have hbeq : (r₀.rid == rid₀) = true := by rw [hr0]; exact beq_self_eq_true _
        simp [hbeq]
        rw [if_pos hr0]
      · exact ih (markSettled rs rid₀) hnd' hqrest hlink' e hmem
    · have hactF : acts.contains r₀.action = false := by
        revert hact
        cases acts.contains r₀.action <;> simp
      have hstep : releaseMatching acts rs (rid₀ :: rest) =
          ((releaseMatching acts rs rest).1,
           (releaseMatching acts rs rest).2.1,
           rid₀ :: (releaseMatching acts rs rest).2.2) := by
        conv_lhs => rw [releaseMatching]
        rw [hf0]
        simp only [hactF, Bool.false_eq_true, if_false]
      have hlink' : ∀ rid ∈ rest,
          (findResolver rs rid).map (fun r => r.settled) = some false :=
        fun rid hrid => hlink rid (List.mem_cons_of_mem _ hrid)
      rw [hstep]
      intro e he
      exact ih rs hnd hqrest hlink' e he

theorem settleQueue_spec (b : Bool) :
    ∀ (q : List Nat) (rs : List PendingResolver),
    (rs.map PendingResolver.rid).Nodup → q.Nodup →
    (∀ rid ∈ q, (findResolver rs rid).map (fun r => r.settled) = some false) →
    ((settleQueue rs b q).1.map PendingResolver.rid = rs.map PendingResolver.rid) ∧
    (∀ rid, rid ∉ q →
      findResolver (settleQueue rs b q).1 rid = findResolver rs rid) ∧
    (∀ rid ∈ q, (findResolver (settleQueue rs b q).1 rid).map
      (fun r => r.settled) = some true) ∧
    ((settleQueue rs b q).2.map Prod.fst).Nodup ∧
    (∀ e ∈ (settleQueue rs b q).2, e.1 ∈ q ∧ e.2 = b) := by
  intro q
  induction q with
  | nil =>
    intro rs hnd hq hlink
    refine ⟨rfl, fun _ _ => rfl, ?_, List.nodup_nil, ?_⟩
    · intro rid hrid
      exact absurd hrid (List.not_mem_nil rid)
    · intro e he
      exact absurd he (List.not_mem_nil e)
  | cons rid₀ rest ih =>
    intro rs hnd hq hlink
    obtain ⟨hq0, hqrest⟩ := List.nodup_cons.mp hq
    have hl0 := hlink rid₀ (List.mem_cons_self _ _)
    cases hf0 : findResolver rs rid₀ with
    | none => rw [hf0] at hl0; cases hl0
    | some r₀ =>
    rw [hf0] at hl0
    have hs0 : r₀.settled = false := by simpa using hl0
    have hr0 : r₀.rid = rid₀ := (findResolver_mem hf0).2
    have hstep : settleQueue rs b (rid₀ :: rest) =
        ((settleQueue (markSettled rs rid₀) b rest).1,
         (rid₀, b) :: (settleQueue (markSettled rs rid₀) b rest).2) := by
      conv_lhs => rw [settleQueue]
      rw [settleResolver_of_unsettled hf0 hs0 b]
      rfl
    have hnd' : ((markSettled rs rid₀).map PendingResolver.rid).Nodup := by
      rw [markSettled_map_rid]; exact hnd
    have hlink' : ∀ rid ∈ rest,
        (findResolver (markSettled rs rid₀) rid).map (fun r => r.settled) =
          some false := by
      intro rid hrid
      have hne : rid ≠ rid₀ := fun heq => hq0 (heq ▸ hrid)
      rw [findResolver_markSettled_ne hne]
      exact hlink rid (List.mem_cons_of_mem _ hrid)
    obtain ⟨ih1, ih2, ih3, ih4, ih5⟩ := ih (markSettled rs rid₀) hnd' hqrest hlink'
    rw [hstep]
    refine ⟨?_, ?_, ?_, ?_, ?_⟩
    · rw [ih1, markSettled_map_rid]
    · intro rid hrid
      have hrest : rid ∉ rest := fun hmem => hrid (List.mem_cons_of_mem _ hmem)
      have hne : rid ≠ rid₀ := fun heq => hrid (heq ▸ List.mem_cons_self _ _)
      rw [ih2 rid hrest, findResolver_markSettled_ne hne]
    · intro rid hrid
      rcases List.mem_cons.mp hrid with heq | hmem
      · subst heq
        rw [ih2 rid hq0, findResolver_markSettled, hf0]
        have hbeq : (r₀.rid == rid) = true := by rw [hr0]; exact beq_self_eq_true _
        simp [hbeq]
        rw [if_pos hr0]
      · exact ih3 rid hmem
    · rw [List.map_cons, List.nodup_cons]
      refine ⟨?_, ih4⟩
      intro hmem
      obtain ⟨e, he, hfst⟩ := List.mem_map.mp hmem
      have hfst' : e.1 = rid₀ := hfst
      exact hq0 (hfst' ▸ (ih5 e he).1)
    · intro e he
      rcases List.mem_cons.mp he with heq | hmem
      · subst heq
        exact ⟨List.mem_cons_self _ _, rfl⟩
      · obtain ⟨h1, h2⟩ := ih5 e hmem
        exact ⟨List.mem_cons_of_mem _ h1, h2⟩

theorem queue_rid_lt {st : SessionState} (hb : ∀ rid ∈ st.resolvers.map
      PendingResolver.rid, rid < st.nextId)
    (hlink : ∀ rid ∈ st.queue,
      (findResolver st.resolvers rid).map (fun r => r.settled) = some false) :
    ∀ rid ∈ st.queue, rid < st.nextId := by
  intro rid hrid
  have hl := hlink rid hrid
  cases hf : findResolver st.resolvers rid with
  | none => rw [hf] at hl; cases hl
  | some r =>
    obtain ⟨hmem, hridr⟩ := findResolver_mem hf
    have := hb r.rid (List.mem_map_of_mem PendingResolver.rid hmem)
    rw [hridr] at this
    exact this

theorem applyEvent_spec (st : SessionState) (ev : SEvent) (hwf : SessionWF st) :
    SessionWF (applyEvent st ev).1 ∧
    (((applyEvent st ev).2.map Prod.fst).Nodup) ∧
    (∀ x ∈ (applyEvent st ev).2,
      ¬ settledIn st x.1 ∧ settledIn (applyEvent st ev).1 x.1) ∧
    (∀ rid, settledIn st rid → settledIn (applyEvent st ev).1 rid) := by
  obtain ⟨hb, hnd, hq, hlink⟩ := hwf
  cases ev with
  | start now params =>
    obtain ⟨s1, s2, s3, s4, s5, s6⟩ :=
      releaseMatching_spec (params.actions.getD ["message.send"]) st.queue
        st.resolvers hnd hq hlink
    have hset := releaseMatching_emits_settled (params.actions.getD ["message.send"])
      st.queue st.resolvers hnd hq hlink
    have hnd' : (((releaseMatching (params.actions.getD ["message.send"])
        st.resolvers st.queue).1).map PendingResolver.rid).Nodup := by
      rw [s1]; exact hnd
    refine ⟨⟨?_, ?_, ?_, ?_⟩, s5, ?_, ?_⟩
    · show ∀ rid ∈ ((releaseMatching (params.actions.getD ["message.send"])
        st.resolvers st.queue).1).map PendingResolver.rid, rid < st.nextId
      rw [s1]; exact hb
    · exact hnd'
    · exact s2.nodup hq
    · intro rid hrid
      have hq' : rid ∈ st.queue := s2.subset hrid
      have hl := hlink rid hq'
      cases hf : findResolver st.resolvers rid with
      | none => rw [hf] at hl; cases hl
      | some r =>
        rw [hf] at hl
        have hs : r.settled = false := by simpa using hl
        by_cases hact : (params.actions.getD ["message.send"]).contains r.action = true
        · exact absurd hrid ((s4 rid hq' r hf).1 hact).2.1
        · have hactF : (params.actions.getD ["message.send"]).contains r.action
              = false := by
            revert hact
            cases (params.actions.getD ["message.send"]).contains r.action <;> simp
          have := ((s4 rid hq' r hf).2 hactF).2
          show (findResolver (releaseMatching (params.actions.getD ["message.send"])
            st.resolvers st.queue).1 rid).map (fun r => r.settled) = some false
          rw [this]
          simp [hs]
    · intro x hx
      obtain ⟨hxq, _⟩ := s6 x hx
      constructor
      · intro hsett
        rw [settledIn_iff_find hnd] at hsett
        have hl := hlink x.1 hxq
        rw [hsett] at hl
        exact Bool.noConfusion (Option.some.inj hl)
      · exact (settledIn_iff_find hnd').mpr (hset x hx)
    · intro rid hsett
      rw [settledIn_iff_find hnd] at hsett
      have hnotq : rid ∉ st.queue := by
        intro hmem
        have hl := hlink rid hmem
        rw [hsett] at hl
        exact Bool.noConfusion (Option.some.inj hl)
      apply (settledIn_iff_find hnd').mpr
      show (findResolver (releaseMatching (params.actions.getD ["message.send"])
        st.resolvers st.queue).1 rid).map (fun r => r.settled) = some true
      rw [s3 rid hnotq]
      exact hsett
  | close =>
    obtain ⟨s1, s2, s3, s4, s5⟩ := settleQueue_spec false st.queue st.resolvers hnd hq hlink
    have hnd' : (((settleQueue st.resolvers false st.queue).1).map
        PendingResolver.rid).Nodup := by
      rw [s1]; exact hnd
    refine ⟨⟨?_, ?_, List.nodup_nil, ?_⟩, s4, ?_, ?_⟩
    · show ∀ rid ∈ ((settleQueue st.resolvers false st.queue).1).map
        PendingResolver.rid, rid < st.nextId
      rw [s1]; exact hb
    · exact hnd'
    · intro rid hrid
      exact absurd hrid (List.not_mem_nil rid)
    · intro x hx
      obtain ⟨hxq, _⟩ := s5 x hx
      constructor
      · intro hsett
        rw [settledIn_iff_find hnd] at hsett
        have hl := hlink x.1 hxq
        rw [hsett] at hl
        exact Bool.noConfusion (Option.some.inj hl)
      · exact (settledIn_iff_find hnd').mpr (s3 x.1 hxq)
    · intro rid hsett
      rw [settledIn_iff_find hnd] at hsett
      have hnotq : rid ∉ st.queue := by
        intro hmem
        have hl := hlink rid hmem
        rw [hsett] at hl
        exact Bool.noConfusion (Option.some.inj hl)
      apply (settledIn_iff_find hnd').mpr
      show (findResolver (settleQueue st.resolvers false st.queue).1 rid).map
        (fun r => r.settled) = some true
      rw [s2 rid hnotq]
      exact hsett
  | fire rid =>
    have herase : ∀ rid' ∈ st.queue.erase rid, rid' ∈ st.queue ∧ rid' ≠ rid := by
      intro rid' hrid'
      have hmem : rid' ∈ st.queue := (List.erase_sublist rid st.queue).subset hrid'
      refine ⟨hmem, ?_⟩
      intro heq
      subst heq
      exact ((hq.mem_erase_iff).mp hrid').1 rfl
    cases hf : findResolver st.resolvers rid with
    | none =>
      have hstep : applyEvent st (SEvent.fire rid) =
          ({ st with queue := st.queue.erase rid }, []) := by
        show timerFire st rid = _
        unfold timerFire
        rw [settleResolver_of_none hf false]
      rw [hstep]
      refine ⟨⟨hb, hnd, (List.erase_sublist rid st.queue).nodup hq, ?_⟩, by simp, ?_, ?_⟩
      · intro rid' hrid'
        exact hlink rid' (herase rid' hrid').1
      · intro x hx
        exact absurd hx (List.not_mem_nil x)
      · intro rid' hsett
        exact hsett
    | some r =>
      by_cases hs : r.settled = true
      · have hstep : applyEvent st (SEvent.fire rid) =
            ({ st with queue := st.queue.erase rid }, []) := by
          show timerFire st rid = _
          unfold timerFire
          rw [settleResolver_of_settled hf hs false]
        rw [hstep]
        refine ⟨⟨hb, hnd, (List.erase_sublist rid st.queue).nodup hq, ?_⟩,
          by simp, ?_, ?_⟩
        · intro rid' hrid'
          exact hlink rid' (herase rid' hrid').1
        · intro x hx
          exact absurd hx (List.not_mem_nil x)
        · intro rid' hsett
          exact hsett
      · have hs' : r.settled = false := by
          revert hs
          cases r.settled <;> simp
        have hstep : applyEvent st (SEvent.fire rid) =
            ({ st with
                resolvers := markSettled st.resolvers rid
                queue := st.queue.erase rid }, [(rid, false)]) := by
          show timerFire st rid = _
          unfold timerFire
          rw [settleResolver_of_unsettled hf hs' false]
        have hridr : r.rid = rid := (findResolver_mem hf).2
        have hnd' : ((markSettled st.resolvers rid).map PendingResolver.rid).Nodup := by
          rw [markSettled_map_rid]; exact hnd
        have hfind' : findResolver (markSettled st.resolvers rid) rid =
            some { r with settled := true } := by
          rw [findResolver_markSettled, hf]
          have hbeq : (r.rid == rid) = true := by rw [hridr]; exact beq_self_eq_true _
          simp [hbeq]
          exact fun hne => absurd hridr hne
        rw [hstep]
        refine ⟨⟨?_, hnd', (List.erase_sublist rid st.queue).nodup hq, ?_⟩,
          by simp, ?_, ?_⟩
        · show ∀ rid' ∈ (markSettled st.resolvers rid).map PendingResolver.rid,
            rid' < st.nextId
          rw [markSettled_map_rid]
          exact hb
        · intro rid' hrid'
          obtain ⟨hmem, hne⟩ := herase rid' hrid'
          show (findResolver (markSettled st.resolvers rid) rid').map
            (fun r => r.settled) = some false
          rw [findResolver_markSettled_ne hne]
          exact hlink rid' hmem
        · intro x hx
          have hx' : x = (rid, false) := by
            rcases List.mem_cons.mp hx with h | h
            · exact h
            · exact absurd h (List.not_mem_nil x)
          subst hx'
          constructor
          · intro hsett
            rw [settledIn_iff_find hnd] at hsett
            rw [hf] at hsett
            have : r.settled = true := by simpa using hsett
            rw [this] at hs'
            cases hs'
          · exact ⟨{ r with settled := true }, (findResolver_mem hfind').1,
              (findResolver_mem hfind').2, rfl⟩
        · intro rid' hsett
          rw [settledIn_iff_find hnd] at hsett
          by_cases hne : rid' = rid
          · subst hne
            rw [hf] at hsett
            have : r.settled = true := by simpa using hsett
            rw [this] at hs'
            cases hs'
          · apply (settledIn_iff_find hnd').mpr
            rw [findResolver_markSettled_ne hne]
            exact hsett
  | wait now action tmo =>
    obtain ⟨hre, hqe, hnx⟩ := lazyExpire_resolvers st now
    by_cases happ : isActionApproved st now action = true
    · have hstep : applyEvent st (SEvent.wait now action tmo) =
          (lazyExpire st now, []) := by
        show ((waitForApprovalWindow st now action tmo).1, ([] : List (Nat × Bool))) = _
        unfold waitForApprovalWindow
        rw [if_pos happ]
      rw [hstep]
      refine ⟨⟨?_, ?_, ?_, ?_⟩, by simp, ?_, ?_⟩
      · rw [hre, hnx]; exact hb
      · rw [hre]; exact hnd
      · rw [hqe]; exact hq
      · rw [hqe, hre]; exact hlink
      · intro x hx
        exact absurd hx (List.not_mem_nil x)
      · intro rid hsett
        unfold settledIn
        rw [hre]
        exact hsett
    · have hstep : applyEvent st (SEvent.wait now action tmo) =
          ({ activeWindow := (lazyExpire st now).activeWindow,
             resolvers := st.resolvers ++ [⟨st.nextId, action, false⟩],
             queue := st.queue ++ [st.nextId],
             nextId := st.nextId + 1 }, []) := by
        show ((waitForApprovalWindow st now action tmo).1, ([] : List (Nat × Bool))) = _
        unfold waitForApprovalWindow
        rw [if_neg happ]
        dsimp only
        rw [hre, hqe, hnx]
      have hqb := queue_rid_lt hb hlink
      have hfnew : findResolver (st.resolvers ++ [⟨st.nextId, action, false⟩])
          st.nextId = some ⟨st.nextId, action, false⟩ := by
        have hnone : findResolver st.resolvers st.nextId = none := by
          apply List.find?_eq_none.mpr
          intro r hr hbeq
          have : r.rid = st.nextId := eq_of_beq hbeq
          have hlt := hb r.rid (List.mem_map_of_mem PendingResolver.rid hr)
          rw [this] at hlt
          exact lt_irrefl _ hlt
        unfold findResolver
        rw [find?_append_none hnone]
        rw [List.find?_cons]
        have hbeq : ((⟨st.nextId, action, false⟩ : PendingResolver).rid ==
          st.nextId) = true := beq_self_eq_true _
        simp [hbeq]
      rw [hstep]
      refine ⟨⟨?_, ?_, ?_, ?_⟩, by simp, ?_, ?_⟩
      · intro rid hrid
        rw [List.map_append] at hrid
        rcases List.mem_append.mp hrid with h | h
        · exact Nat.lt_succ_of_lt (hb rid h)
        · have : rid = st.nextId := by simpa using h
          rw [this]
          exact Nat.lt_succ_self _
      · rw [List.map_append]
        apply List.Nodup.append hnd (by simp)
        intro a ha hb'
        have : a = st.nextId := by simpa using hb'
        rw [this] at ha
        exact lt_irrefl _ (hb _ ha)
      · apply List.Nodup.append hq (by simp)
        intro a ha hb'
        have : a = st.nextId := by simpa using hb'
        rw [this] at ha
        exact lt_irrefl _ (hqb _ ha)
      · intro rid hrid
        rcases List.mem_append.mp hrid with h | h
        · have hl := hlink rid h
          cases hf : findResolver st.resolvers rid with
          | none => rw [hf] at hl; cases hl
          | some r =>
            show (findResolver (st.resolvers ++ [⟨st.nextId, action, false⟩])
              rid).map (fun r => r.settled) = some false
            unfold findResolver
            rw [find?_append_some hf]
            rw [hf] at hl
            exact hl
        · have heq : rid = st.nextId := by simpa using h
          subst heq
          show (findResolver (st.resolvers ++ [⟨st.nextId, action, false⟩])
            st.nextId).map (fun r => r.settled) = some false
          rw [hfnew]
          rfl
      · intro x hx
        exact absurd hx (List.not_mem_nil x)
      · intro rid hsett
        obtain ⟨r, hmem, hridr, hs⟩ := hsett
        exact ⟨r, List.mem_append_left _ hmem, hridr, hs⟩

theorem runEvents_spec (evs : List SEvent) :
    ∀ st : SessionState, SessionWF st →
    SessionWF (runEvents st evs).1 ∧
    (((runEvents st evs).2.map Prod.fst).Nodup) ∧
    (∀ x ∈ (runEvents st evs).2, settledIn (runEvents st evs).1 x.1) ∧
    (∀ rid, settledIn st rid → settledIn (runEvents st evs).1 rid) ∧
    (∀ x ∈ (runEvents st evs).2, ¬ settledIn st x.1) := by
  induction evs with
  | nil =>
    intro st hwf
    refine ⟨hwf, List.nodup_nil, ?_, fun rid h => h, ?_⟩
    · intro x hx
      exact absurd hx (List.not_mem_nil x)
    · intro x hx
      exact absurd hx (List.not_mem_nil x)
  | cons e es ih =>
    intro st hwf
    obtain ⟨w1, w2, w3, w4⟩ := applyEvent_spec st e hwf
    obtain ⟨i1, i2, i3, i4, i5⟩ := ih (applyEvent st e).1 w1
    have hout : (runEvents st (e :: es)).2 =
        (applyEvent st e).2 ++ (runEvents (applyEvent st e).1 es).2 := rfl
    have hst : (runEvents st (e :: es)).1 = (runEvents (applyEvent st e).1 es).1 := rfl
    rw [hout, hst]
    refine ⟨i1, ?_, ?_, ?_, ?_⟩
    · rw [List.map_append]
      apply List.Nodup.append w2 i2
      intro a ha hb'
      obtain ⟨x, hx, hfx⟩ := List.mem_map.mp ha
      obtain ⟨y, hy, hfy⟩ := List.mem_map.mp hb'
      apply i5 y hy
      have hxy : x.1 = y.1 := by rw [hfx, hfy]
      rw [← hxy]
      exact (w3 x hx).2
    · intro x hx
      rcases List.mem_append.mp hx with h | h
      · exact i4 x.1 ((w3 x h).2)
      · exact i3 x h
    · intro rid hsett
      exact i4 rid (w4 rid hsett)
    · intro x hx
      rcases List.mem_append.mp hx with h | h
      · exact (w3 x h).1
      · intro hc
        exact i5 x h (w4 x.1 hc)

/-- C4: over any sequence of session events from the initial state,
every resolver's outcome callback fires at most once (whichever of its
deadline timer, a window open, or a window close settles it first
wins; later attempts are no-ops), and in every reachable state a
settled resolver is no longer in the wait queue. -/
theorem resolver_settled_at_most_once (evs : List SEvent) :
    (((runEvents initSessionState evs).2.map Prod.fst).Nodup) ∧
    (∀ rid ∈ (runEvents initSessionState evs).1.queue,
      ∀ r ∈ (runEvents initSessionState evs).1.resolvers, r.rid = rid →
        r.settled = false) := by
  have hwf0 : SessionWF initSessionState := by
    refine ⟨?_, ?_, ?_, ?_⟩
    · intro rid hrid
      exact absurd hrid (List.not_mem_nil rid)
    · exact List.nodup_nil
    · exact List.nodup_nil
    · intro rid hrid
      exact absurd hrid (List.not_mem_nil rid)
  obtain ⟨s1, s2, s3, s4, s5⟩ := runEvents_spec evs initSessionState hwf0
  refine ⟨s2, ?_⟩
  intro rid hrid r hr hrideq
  obtain ⟨b1, b2, b3, b4⟩ := s1
  have hfind := find_of_mem_nodup b2 hr
  rw [hrideq] at hfind
  have hl := b4 rid hrid
  rw [hfind] at hl
  simpa using hl

theorem digitChar_is_digit (k : Nat) :
    isAsciiDigit ("0123456789".data.getD k '0') = true := by
  rw [List.getD_eq_getElem?_getD]
  cases h : "0123456789".data[k]? with
  | none => decide
  | some c =>
    have hc : c ∈ "0123456789".data := List.getElem?_mem h
    simp only [Option.getD_some]
    exact List.all_eq_true.mp (by decide) c hc

theorem natDigits_all_digits : ∀ fuel n, (natDigits fuel n).all isAsciiDigit = true := by
  intro fuel
  induction fuel with
  | zero => intro n; rfl
  | succ f ih =>
    intro n
    unfold natDigits
    by_cases h : n < 10
    · rw [if_pos h]
      simp only [List.all_cons, List.all_nil, Bool.and_true]
      exact digitChar_is_digit n
    · rw [if_neg h, List.all_append, ih (n / 10)]
      simp only [Bool.true_and, List.all_cons, List.all_nil, Bool.and_true]
      exact digitChar_is_digit (n % 10)

theorem natDigits_len : ∀ (fuel k n : Nat), n < 10 ^ k →
    (natDigits fuel n).length ≤ max k 1 := by
  intro fuel
  induction fuel with
  | zero =>
    intro k n _
    exact Nat.zero_le _
  | succ f ih =>
    intro k n hn
    unfold natDigits
    by_cases h : n < 10
    · rw [if_pos h]
      simp only [List.length_singleton]
      omega
    · rw [if_neg h]
      have hk2 : 2 ≤ k := by
        by_contra hk
        have hk1 : k ≤ 1 := by omega
        have : (10 : Nat) ^ k ≤ 10 ^ 1 := Nat.pow_le_pow_right (by omega) hk1
        simp at this
        omega
      have hdiv : n / 10 < 10 ^ (k - 1) := by
        apply Nat.div_lt_of_lt_mul
        have : (10 : Nat) ^ k = 10 ^ (k - 1) * 10 := by
          rw [← Nat.pow_succ]
          congr 1
          omega
        omega
      have := ih (k - 1) (n / 10) hdiv
      rw [List.length_append]
      simp only [List.length_singleton]
      omega

theorem natDecimal_len {n : Nat} (h : n < 1000000) : (natDecimal n).length ≤ 6 := by
  have h6 : n < 10 ^ 6 := by norm_num; omega
  have := natDigits_len n 6 n h6
  simpa [natDecimal] using this

theorem generated_code_shape {n : Nat} (h : n < 1000000) :
    (jsPadStart (natDecimal n) 6 '0').length = 6 ∧
    (jsPadStart (natDecimal n) 6 '0').data.all isAsciiDigit = true := by
  have hlen := natDecimal_len h
  constructor
  · show (List.replicate (6 - (natDecimal n).length) '0' ++ (natDecimal n).data).length = 6
    rw [List.length_append, List.length_replicate]
    have : (natDecimal n).data.length = (natDecimal n).length := rfl
    omega
  · show (List.replicate (6 - (natDecimal n).length) '0' ++
      (natDecimal n).data).all isAsciiDigit = true
    rw [List.all_append]
    have h1 : (List.replicate (6 - (natDecimal n).length) '0').all isAsciiDigit
        = true := by
      rw [List.all_eq_true]
      intro x hx
      rw [List.eq_of_mem_replicate hx]
      decide
    have h2 : (natDecimal n).data.all isAsciiDigit = true := natDigits_all_digits _ _
    rw [h1, h2]
    rfl

theorem dynamicTruncate_lt (l : List Nat) : dynamicTruncate l < 1000000 := by
  unfold dynamicTruncate
  exact Nat.mod_lt _ (by decide)

theorem digit_not_trimmable {c : Char} (h : isAsciiDigit c = true) :
    jsIsTrimmable c = false := by
  have hb : 48 ≤ c.toNat ∧ c.toNat ≤ 57 := by
    unfold isAsciiDigit at h
    rw [Bool.and_eq_true] at h
    exact ⟨by simpa using h.1, by simpa using h.2⟩
  cases hcase : jsIsTrimmable c with
  | false => rfl
  | true =>
    exfalso
    unfold jsIsTrimmable at hcase
    simp only [Bool.or_eq_true, Bool.and_eq_true, beq_iff_eq, decide_eq_true_eq]
      at hcase
    omega

theorem dropWhile_digits (l : List Char) (h : ∀ x ∈ l, isAsciiDigit x = true) :
    l.dropWhile jsIsTrimmable = l := by
  cases l with
  | nil => rfl
  | cons c cs =>
    have hc := digit_not_trimmable (h c (List.mem_cons_self _ _))
    simp [List.dropWhile_cons, hc]

theorem jsTrim_of_digits {s : String} (h : s.data.all isAsciiDigit = true) :
    jsTrim s = s := by
  have hmem := List.all_eq_true.mp h
  unfold jsTrim
  rw [dropWhile_digits s.data hmem]
  rw [dropWhile_digits s.data.reverse (fun x hx => hmem x (List.mem_reverse.mp hx))]
  rw [List.reverse_reverse]

theorem fdiv_cast_30000 (m : Nat) :
    ((m : Int)).fdiv 30000 = ((m / 30000 : Nat) : Int) := by
  cases m with
  | zero => rw [Nat.zero_div]; rfl
  | succ k => rfl

theorem generateTotpCode_ok (secret : String) (key : List Nat) (t : Int)
    (hsec : base32Decode secret = some key) (h0 : 0 ≤ t)
    (h1 : t < 30000 * 18446744073709551616) :
    generateTotpCode secret t =
      .ok (jsPadStart (natDecimal (dynamicTruncate (hmacSha1 key
        (beBytes 8 (Int.fdiv t 30000).toNat)))) 6 '0') ∧
    (jsPadStart (natDecimal (dynamicTruncate (hmacSha1 key
      (beBytes 8 (Int.fdiv t 30000).toNat)))) 6 '0').length = 6 ∧
    (jsPadStart (natDecimal (dynamicTruncate (hmacSha1 key
      (beBytes 8 (Int.fdiv t 30000).toNat)))) 6 '0').data.all isAsciiDigit = true := by
  obtain ⟨m, rfl⟩ := Int.eq_ofNat_of_zero_le h0
  have hm : m < 30000 * 18446744073709551616 := by exact_mod_cast h1
  have hdiv : ((m : Int)).fdiv 30000 = ((m / 30000 : Nat) : Int) := fdiv_cast_30000 m
  have hcond : ¬ (((m : Int)).fdiv 30000 < 0 ∨
      (18446744073709551616 : Int) ≤ ((m : Int)).fdiv 30000) := by
    rw [hdiv]
    push_neg
    constructor
    · exact_mod_cast Nat.zero_le _
    · have hlt : m / 30000 < 18446744073709551616 :=
        Nat.div_lt_of_lt_mul (by omega)
      exact_mod_cast hlt
  obtain ⟨hshape1, hshape2⟩ :=
    generated_code_shape (dynamicTruncate_lt (hmacSha1 key
      (beBytes 8 (((m : Int)).fdiv 30000).toNat)))
  refine ⟨?_, hshape1, hshape2⟩
  unfold generateTotpCode
  dsimp only
  rw [if_neg hcond, hsec]

theorem probeOffsets_mem {w : Nat} {i : Int} (h : i ∈ probeOffsets w) :
    -(w : Int) ≤ i ∧ i ≤ (w : Int) := by
  unfold probeOffsets at h
  rw [List.mem_map] at h
  obtain ⟨j, hj, heq⟩ := h
  rw [List.mem_range] at hj
  have hj2 : (j : Int) < 2 * (w : Int) + 1 := by exact_mod_cast hj
  have hj0 : (0 : Int) ≤ (j : Int) := Int.ofNat_nonneg j
  constructor
  · rw [← heq]; omega
  · rw [← heq]; omega

theorem verifyLoop_cons_ok {secret : String} {trimmed : List Nat} {timeMs i : Int}
    {rest : List Int} {expected : String}
    (hgen : generateTotpCode secret (timeMs + i * 30000) = .ok expected)
    (hlen : trimmed.length = expected.data.length) :
    verifyLoop secret trimmed timeMs (i :: rest) =
      if trimmed == expected.data.map Char.toNat then .ok true
      else verifyLoop secret trimmed timeMs rest := by
  conv_lhs => rw [verifyLoop]
  rw [hgen]
  dsimp only
  have hlen' : trimmed.length = (expected.data.map Char.toNat).length := by
    rw [List.length_map]
    exact hlen
  have hts : timingSafeEqual trimmed (expected.data.map Char.toNat) =
      .ok (trimmed == expected.data.map Char.toNat) := by
    unfold timingSafeEqual
    rw [if_neg (fun hne => hne hlen')]
  rw [hts]
  cases hb : trimmed == expected.data.map Char.toNat <;> simp

theorem generateTotpCode_exists (secret : String) (key : List Nat) (t : Int)
    (hsec : base32Decode secret = some key) (h0 : 0 ≤ t)
    (h1 : t < 30000 * 18446744073709551616) :
    ∃ c, generateTotpCode secret t = .ok c ∧ c.length = 6 ∧
      c.data.all isAsciiDigit = true := by
  obtain ⟨hg, hl, hd⟩ := generateTotpCode_ok secret key t hsec h0 h1
  exact ⟨_, hg, hl, hd⟩

theorem verifyLoop_total (secret : String) (key : List Nat)
    (hsec : base32Decode secret = some key) (trimmed : List Nat)
    (hlen : trimmed.length = 6) (timeMs : Int) :
    ∀ is : List Int, (∀ i ∈ is, 0 ≤ timeMs + i * 30000 ∧
      timeMs + i * 30000 < 30000 * 18446744073709551616) →
    ∃ b, verifyLoop secret trimmed timeMs is = .ok b := by
  intro is
  induction is with
  | nil => exact fun _ => ⟨false, rfl⟩
  | cons i rest ih =>
    intro hbnd
    obtain ⟨h0, h1⟩ := hbnd i (List.mem_cons_self _ _)
    obtain ⟨c, hgen, hclen, _⟩ :=
      generateTotpCode_exists secret key (timeMs + i * 30000) hsec h0 h1
    have hdl : c.data.length = 6 := hclen
    rw [verifyLoop_cons_ok hgen (by omega)]
    by_cases hb : (trimmed == c.data.map Char.toNat) = true
    · rw [if_pos hb]
      exact ⟨true, rfl⟩
    · rw [if_neg hb]
      exact ih (fun j hj => hbnd j (List.mem_cons_of_mem _ hj))

/-- C5 (amended): for every valid base32 secret and every time `t`
whose probed HMAC counters are representable (`30000 ≤ t` and
`t + 31min` below `30000·2^64`), the code generated at `t` verifies at
`t` with window 1; and the code generated at `t` fails verification at
`t + 31·60·1000` with window 0 whenever the codes of the two time
steps differ (they are 62 steps apart but the 6-digit codes can
collide, see the counterexample). -/
theorem totp_roundtrip (secret : String) (key : List Nat) (t : Int)
    (hsec : base32Decode secret = some key)
    (hlo : 30000 ≤ t) (hhi : t + 1860000 < 30000 * 18446744073709551616) :
    (∃ c, generateTotpCode secret t = .ok c ∧
      verifyTotpCode secret c 1 t = .ok true) ∧
    (∀ ca cb, generateTotpCode secret t = .ok ca →
      generateTotpCode secret (t + 1860000) = .ok cb → ca ≠ cb →
      verifyTotpCode secret ca 0 (t + 1860000) = .ok false) := by
  obtain ⟨c, hgen, hclen, hcdig⟩ :=
    generateTotpCode_exists secret key t hsec (by omega) (by omega)
  have hcdl : c.data.length = 6 := hclen
  constructor
  · refine ⟨c, hgen, ?_⟩
    unfold verifyTotpCode
    dsimp only
    rw [jsTrim_of_digits hcdig]
    rw [if_neg (by push_neg; exact ⟨hclen, hcdig⟩)]
    have hoff : probeOffsets 1 = [-1, 0, 1] := by decide
    rw [hoff]
    obtain ⟨e1, hgen1, he1len, _⟩ :=
      generateTotpCode_exists secret key (t + (-1) * 30000) hsec (by omega) (by omega)
    have he1dl : e1.data.length = 6 := he1len
    rw [verifyLoop_cons_ok hgen1 (by rw [List.length_map]; omega)]
    by_cases hb1 : (c.data.map Char.toNat == e1.data.map Char.toNat) = true
    · rw [if_pos hb1]
    · rw [if_neg hb1]
      have hgen0 : generateTotpCode secret (t + 0 * 30000) = .ok c := by
        rw [show t + 0 * 30000 = t from by ring]
        exact hgen
      rw [verifyLoop_cons_ok hgen0 (by rw [List.length_map])]
      rw [if_pos (beq_self_eq_true _)]
  · intro ca cb hga hgb hne
    have hceq : ca = c := Except.ok.inj (hga.symm.trans hgen)
    obtain ⟨e, hgen', helen, _⟩ :=
      generateTotpCode_exists secret key (t + 1860000) hsec (by omega) (by omega)
    have hcbeq : cb = e := Except.ok.inj (hgb.symm.trans hgen')
    rw [hceq, hcbeq] at hne
    rw [hceq]
    have hedl : e.data.length = 6 := helen
    unfold verifyTotpCode
    dsimp only
    rw [jsTrim_of_digits hcdig]
    rw [if_neg (by push_neg; exact ⟨hclen, hcdig⟩)]
    have hoff : probeOffsets 0 = [0] := by decide
    rw [hoff]
    have hgen0 : generateTotpCode secret ((t + 1860000) + 0 * 30000) = .ok e := by
      rw [show (t + 1860000) + 0 * 30000 = t + 1860000 from by ring]
      exact hgen'
    rw [verifyLoop_cons_ok hgen0 (by rw [List.length_map]; omega)]
    have hmapne : ¬ (c.data.map Char.toNat == e.data.map Char.toNat) = true := by
      intro hb
      apply hne
      have hdata := eq_of_beq hb
      have hinj : Function.Injective Char.toNat := fun a b h =>
        Char.ext (UInt32.toNat.inj h)
      have hdeq : c.data = e.data := List.map_injective_iff.mpr hinj hdata
      cases c with
      | mk l =>
        cases e with
        | mk l2 => exact congrArg String.mk hdeq
    rw [if_neg hmapne]
    rfl

/-- Counterexample to C5 as stated: (a) with secret `AAACU3SX` and
`t = 1710000000000` the 6-digit codes 62 steps apart collide, so the
code from `t` still verifies at `t + 31min` with window 0; (b) at
`t = 0`, round-trip verification with window 1 throws
(`writeBigUInt64BE` rejects the negative counter at probe `-1`)
instead of returning true. -/
theorem totp_roundtrip_counterexample :
    generateTotpCode "AAACU3SX" 1710000000000 = .ok "403033" ∧
    verifyTotpCode "AAACU3SX" "403033" 0 1710001860000 = .ok true ∧
    generateTotpCode "AAACU3SX" 0 = .ok "206152" ∧
    verifyTotpCode "AAACU3SX" "206152" 1 0 = .error "ERR_OUT_OF_RANGE" :=
  ⟨by decide, by decide, by decide, by decide⟩

theorem totp_roundtrip_witness :
    (∃ c, generateTotpCode "GEZDGNBVGY3TQOJQ" 1710000000000 = .ok c ∧
      verifyTotpCode "GEZDGNBVGY3TQOJQ" c 1 1710000000000 = .ok true) ∧
    (∀ ca cb, generateTotpCode "GEZDGNBVGY3TQOJQ" 1710000000000 = .ok ca →
      generateTotpCode "GEZDGNBVGY3TQOJQ" (1710000000000 + 1860000) = .ok cb →
      ca ≠ cb →
      verifyTotpCode "GEZDGNBVGY3TQOJQ" ca 0 (1710000000000 + 1860000) = .ok false) :=
  totp_roundtrip "GEZDGNBVGY3TQOJQ" [49, 50, 51, 52, 53, 54, 55, 56, 57, 48]
    1710000000000 (by decide) (by decide) (by decide)

/-- C10 (amended): for every syntactically valid base32 secret, every
code string, and every window/time whose probed counters all lie in
`[0, 2^64)`, `verifyTotpCode` returns a boolean and never throws — in
particular the digit precheck makes the unequal-length branch of the
constant-time comparison unreachable — and any input whose trimmed
form is not exactly 6 ASCII digits returns `.ok false`. -/
theorem verifyTotpCode_total (secret code : String) (key : List Nat)
    (window : Nat) (t : Int)
    (hsec : base32Decode secret = some key)
    (hlo : 0 ≤ t - (window : Int) * 30000)
    (hhi : t + (window : Int) * 30000 < 30000 * 18446744073709551616) :
    (∃ b, verifyTotpCode secret code window t = .ok b) ∧
    ((jsTrim code).length ≠ 6 ∨ ¬ (jsTrim code).data.all isAsciiDigit = true →
      verifyTotpCode secret code window t = .ok false) := by
  by_cases hcheck : (jsTrim code).length ≠ 6 ∨
      ¬ (jsTrim code).data.all isAsciiDigit = true
  · have hv : verifyTotpCode secret code window t = .ok false := by
      unfold verifyTotpCode
      dsimp only
      rw [if_pos hcheck]
    exact ⟨⟨false, hv⟩, fun _ => hv⟩
  · refine ⟨?_, fun hcon => absurd hcon hcheck⟩
    have hlen : (jsTrim code).length = 6 := by
      rcases not_or.mp hcheck with ⟨hA, _⟩
      exact not_ne_iff.mp hA
    unfold verifyTotpCode
    dsimp only
    rw [if_neg hcheck]
    apply verifyLoop_total secret key hsec ((jsTrim code).data.map Char.toNat)
      (by rw [List.length_map]; exact hlen) t (probeOffsets window)
    intro i hi
    obtain ⟨hge, hle⟩ := probeOffsets_mem hi
    constructor
    · omega
    · omega

/-- Counterexample to C10 as stated: at `t = 0` with window 1, the
probe at offset `-1` yields a negative counter and
`writeBigUInt64BE(BigInt(counter))` throws a `RangeError`, so
`verifyTotpCode` throws instead of returning a boolean. -/
theorem verifyTotpCode_throws_counterexample :
    verifyTotpCode "AAACU3SX" "123456" 1 0 = .error "ERR_OUT_OF_RANGE" := by
  decide

theorem verifyTotpCode_total_witness :
    (∃ b, verifyTotpCode "GEZDGNBVGY3TQOJQ" "123456" 1 1710000000000 = .ok b) ∧
    ((jsTrim "123456").length ≠ 6 ∨
        ¬ (jsTrim "123456").data.all isAsciiDigit = true →
      verifyTotpCode "GEZDGNBVGY3TQOJQ" "123456" 1 1710000000000 = .ok false) :=
  verifyTotpCode_total "GEZDGNBVGY3TQOJQ" "123456"
    [49, 50, 51, 52, 53, 54, 55, 56, 57, 48] 1 1710000000000
    (by decide) (by decide) (by decide)
